import Mathlib

/-! The aligned allocation layer of libvpx, `vpx_mem`.

A shallow embedding of `vpx_mem/vpx_mem.c`.  Machine integers are natural
numbers reduced explicitly modulo the width of their C type.  Addresses are
natural numbers, memory is a map from addresses to bytes, and the host
allocator (`malloc`, `realloc`, `free`, `memset`) is an explicit state
transformer whose answer (the address it hands back) is an argument of the
embedded function, so that a theorem quantifying over that argument speaks
about every host allocator.
-/

namespace VpxMem

/-! ## Target parameters -/

/-- The compilation target: `szBytes` is `sizeof(size_t)`, and
`DEFAULT_ALIGNMENT` is the value of the macro of that name, which
`vpx_mem.c` takes from `include/vpx_mem_intrnl.h`. -/
structure Target where
  szBytes : Nat
  DEFAULT_ALIGNMENT : Nat

/-- Number of value bits of `size_t`. -/
def Target.bits (T : Target) : Nat := 8 * T.szBytes

/-- The C constant `SIZE_MAX`. -/
def SIZE_MAX (T : Target) : Nat := 2 ^ T.bits - 1

/-- A 64-bit target: 8-byte `size_t`, default alignment 16. -/
def lp64 : Target := { szBytes := 8, DEFAULT_ALIGNMENT := 16 }

/-- A 32-bit target: 4-byte `size_t`, default alignment 8. -/
def ilp32 : Target := { szBytes := 4, DEFAULT_ALIGNMENT := 8 }

/-! ## Size arithmetic (vpx_mem.c lines 19-42) -/

/-- Lines 19-24: `1ULL << 40` when `SIZE_MAX > (1ULL << 40)`, otherwise
`(1ULL << 31) - (1 << 16)`. -/
def VPX_MAX_ALLOCABLE_MEMORY (T : Target) : Nat :=
  if SIZE_MAX T > 2 ^ 40 then 2 ^ 40 else 2 ^ 31 - 2 ^ 16

/-- Lines 27-34.  Both arguments are `uint64_t`; `total_size` is their
product in `uint64_t`, and `(size_t)total_size` is its reduction to the
width of `size_t`.  The result is the C `int` 0 or 1. -/
def check_size_argument_overflow (T : Target) (nmemb size : Nat) : Nat :=
  let total_size := (nmemb * size) % 2 ^ 64
  if nmemb = 0 then 1
  else if size > VPX_MAX_ALLOCABLE_MEMORY T / nmemb then 0
  else if total_size ≠ total_size % 2 ^ T.bits then 0
  else 1

/-- Line 40-42: `(uint64_t)size + align - 1 + ADDRESS_STORAGE_SIZE`, evaluated
left to right in `uint64_t`, every step reduced modulo `2^64`. -/
def get_aligned_malloc_size_raw (ass size align : Nat) : Nat :=
  ((((size + align) % 2 ^ 64 + (2 ^ 64 - 1)) % 2 ^ 64) + ass) % 2 ^ 64

/-- Modelled from the spec: the macro `ADDRESS_STORAGE_SIZE` comes from
`include/vpx_mem_intrnl.h`, which is not among the sources; the spec describes
the header as a fixed-size slot sized to hold one machine address, that is one
`size_t`. -/
def ADDRESS_STORAGE_SIZE (T : Target) : Nat := T.szBytes

/-- Lines 40-42, `get_aligned_malloc_size`. -/
def get_aligned_malloc_size (T : Target) (size align : Nat) : Nat :=
  get_aligned_malloc_size_raw (ADDRESS_STORAGE_SIZE T) size align

/-! ## Pointer alignment -/

/-- The conversion `(int)x` of an unsigned value to a 32-bit two's complement
`int`. -/
def toInt (x : Nat) : Int :=
  if x % 2 ^ 32 < 2 ^ 31 then ((x % 2 ^ 32 : Nat) : Int)
  else ((x % 2 ^ 32 : Nat) : Int) - 2 ^ 32

/-- The conversion `(size_t)i` of an integer value to `size_t`. -/
def toSizeT (T : Target) (i : Int) : Nat := (i % ((2 ^ T.bits : Nat) : Int)).toNat

/-- Modelled from the spec: the macro `align_addr(addr, align)` comes from
`include/vpx_mem_intrnl.h`, which is not among the sources.  The spec says it
computes the aligned address at or above `addr` that satisfies the alignment;
it is modelled as the customary round-up-and-mask on `size_t`,
`((size_t)(addr) + ((align) - 1)) & ~(size_t)((align) - 1)`, where `align` is
the value of the argument expression (an `int` in `vpx_memalign`, the constant
`DEFAULT_ALIGNMENT` in `vpx_realloc`).  `(align) - 1` is taken in the integers
and then converted to `size_t`; this is the C value except at `align =
INT_MIN`, where the C subtraction overflows `int`.  `~` on `size_t` is
subtraction from `SIZE_MAX`. -/
def align_addr (T : Target) (addr : Nat) (align : Int) : Nat :=
  let m := toSizeT T (align - 1)
  ((addr + m) % 2 ^ T.bits) &&& (2 ^ T.bits - 1 - m)

/-! ## Memory and the host allocator -/

/-- One call to the host allocator. -/
inductive Call where
  | malloc (size : Nat)
  | realloc (ptr size : Nat)
  | free (ptr : Nat)
  | memset (ptr val len : Nat)
  deriving DecidableEq, Repr

/-- The state the module runs in: byte-addressed memory, the raw blocks the
host allocator currently has handed out (address, size), and the log of host
calls made so far, oldest first. -/
structure Heap where
  mem : Nat → Nat
  live : List (Nat × Nat)
  calls : List Call

/-- An empty heap: zeroed memory, no block handed out, no call made. -/
def Heap.empty : Heap := { mem := fun _ => 0, live := [], calls := [] }

/-- Host `malloc(n)` answering `r` (0 is NULL).  The contents of the new block
are whatever memory held. -/
def host_malloc (h : Heap) (n r : Nat) : Heap :=
  { mem := h.mem,
    live := if r = 0 then h.live else (r, n) :: h.live,
    calls := h.calls ++ [Call.malloc n] }

/-- Host `realloc(p, n)` answering `r`.  With `n = 0` and `p` non-null the
object pointed to is freed (comment at lines 82-89 of `vpx_mem.c`), also when
the answer is NULL.  Otherwise a NULL answer (`r = 0`) changes nothing but the
call log.  On a non-null answer the first `min old n` bytes of the old block
are found at `r`, the old block is released and the new one recorded. -/
def host_realloc (h : Heap) (p n r : Nat) : Heap :=
  if r = 0 then
    { mem := h.mem,
      live := if n = 0 ∧ p ≠ 0 then h.live.filter (fun b => b.1 != p) else h.live,
      calls := h.calls ++ [Call.realloc p n] }
  else
    let old := (h.live.lookup p).getD 0
    let k := min old n
    { mem := fun a => if r ≤ a ∧ a < r + k then h.mem (p + (a - r)) else h.mem a,
      live := (r, n) :: h.live.filter (fun b => b.1 != p),
      calls := h.calls ++ [Call.realloc p n] }

/-- Host `free(p)`. -/
def host_free (h : Heap) (p : Nat) : Heap :=
  { mem := h.mem,
    live := h.live.filter (fun b => b.1 != p),
    calls := h.calls ++ [Call.free p] }

/-- Host `memset(p, v, n)`: `n` bytes from `p` are set to `(unsigned char)v`. -/
def host_memset (h : Heap) (p v n : Nat) : Heap :=
  { mem := fun a => if p ≤ a ∧ a < p + n then v % 256 else h.mem a,
    live := h.live,
    calls := h.calls ++ [Call.memset p v n] }

/-- Store the `k` low-order bytes of `v` at `a, a+1, ...`, least significant
first. -/
def storeBytes (m : Nat → Nat) (a : Nat) : Nat → Nat → Nat → Nat
  | 0, _ => m
  | k + 1, v => storeBytes (fun x => if x = a then v % 256 else m x) (a + 1) k (v / 256)

/-- Read `k` bytes at `a, a+1, ...` as an unsigned integer, least significant
first. -/
def loadBytes (m : Nat → Nat) (a : Nat) : Nat → Nat
  | 0 => 0
  | k + 1 => m a % 256 + 256 * loadBytes m (a + 1) k

/-! ## The allocator (vpx_mem.c lines 36-116) -/

/-- Lines 36-38: `((size_t *)mem) - 1`, an address `sizeof(size_t)` below
`mem`, computed modulo the address width. -/
def get_malloc_address_location (T : Target) (mem : Nat) : Nat :=
  (mem + 2 ^ T.bits - T.szBytes) % 2 ^ T.bits

/-- Lines 44-48: the `size_t` at the location before `mem` is set to
`(size_t)malloc_addr`. -/
def set_actual_malloc_address (T : Target) (h : Heap) (mem malloc_addr : Nat) : Heap :=
  { mem := storeBytes h.mem (get_malloc_address_location T mem) T.szBytes
             (malloc_addr % 2 ^ T.bits),
    live := h.live,
    calls := h.calls }

/-- Lines 50-53: the `size_t` at the location before `mem`. -/
def get_actual_malloc_address (T : Target) (h : Heap) (mem : Nat) : Nat :=
  loadBytes h.mem (get_malloc_address_location T mem) T.szBytes

/-- Lines 55-66.  `r` is the answer of the host `malloc`, should it be
called.  The result is the returned pointer and the state afterwards.  This
embedding is total: it carries on with the values the arithmetic gives also
where C leaves the step undefined (see `vpx_memalign_trap`), so it describes
the code on the inputs on which `vpx_memalign_trap` has a result. -/
def vpx_memalign (T : Target) (r : Nat) (h : Heap) (align size : Nat) : Nat × Heap :=
  let aligned_size := get_aligned_malloc_size T size align
  if check_size_argument_overflow T 1 aligned_size = 0 then (0, h)
  else
    let h1 := host_malloc h (aligned_size % 2 ^ T.bits) r
    if r ≠ 0 then
      let x := align_addr T (r + ADDRESS_STORAGE_SIZE T) (toInt align)
      (x, set_actual_malloc_address T h1 x r)
    else (0, h1)

/-- Lines 55-66 once more, the steps that C leaves undefined made explicit:
`none` stands for an execution that does not return.  That is the case when
`(int)align` is `INT_MIN`, so that `(align) - 1` inside `align_addr` overflows
`int`, and when the header store of line 47 (called on line 63) goes through a
pointer that is NULL or whose slot `[x - sizeof(size_t), x)` is not inside
the block `[r, r + n)` which `malloc` handed out. -/
def vpx_memalign_trap (T : Target) (r : Nat) (h : Heap) (align size : Nat) :
    Option (Nat × Heap) :=
  let aligned_size := get_aligned_malloc_size T size align
  if check_size_argument_overflow T 1 aligned_size = 0 then some (0, h)
  else
    let n := aligned_size % 2 ^ T.bits
    let h1 := host_malloc h n r
    if r ≠ 0 then
      if toInt align = -2 ^ 31 then none
      else
        let x := align_addr T (r + ADDRESS_STORAGE_SIZE T) (toInt align)
        let loc := get_malloc_address_location T x
        if x ≠ 0 ∧ r ≤ loc ∧ loc + T.szBytes ≤ r + n then
          some (x, set_actual_malloc_address T h1 x r)
        else none
    else some (0, h1)

/-- Line 68. -/
def vpx_malloc (T : Target) (r : Nat) (h : Heap) (size : Nat) : Nat × Heap :=
  vpx_memalign T r h T.DEFAULT_ALIGNMENT size

/-- Lines 70-77.  `num * size` is a `size_t` product. -/
def vpx_calloc (T : Target) (r : Nat) (h : Heap) (num size : Nat) : Nat × Heap :=
  if check_size_argument_overflow T num size = 0 then (0, h)
  else
    let res := vpx_malloc T r h ((num * size) % 2 ^ T.bits)
    if res.1 ≠ 0 then (res.1, host_memset res.2 res.1 0 ((num * size) % 2 ^ T.bits))
    else res

/-- Lines 111-116. -/
def vpx_free (T : Target) (h : Heap) (memblk : Nat) : Heap :=
  if memblk ≠ 0 then host_free h (get_actual_malloc_address T h memblk) else h

/-- Lines 79-109.  `r` is the answer of the host `malloc` or `realloc`,
whichever is called. -/
def vpx_realloc (T : Target) (r : Nat) (h : Heap) (memblk size : Nat) : Nat × Heap :=
  if memblk = 0 then vpx_malloc T r h size
  else if size = 0 then (0, vpx_free T h memblk)
  else
    let addr := get_actual_malloc_address T h memblk
    let aligned_size := get_aligned_malloc_size T size T.DEFAULT_ALIGNMENT
    if check_size_argument_overflow T 1 aligned_size = 0 then (0, h)
    else
      let h1 := host_realloc h addr (aligned_size % 2 ^ T.bits) r
      if r ≠ 0 then
        let new_addr := align_addr T (r + ADDRESS_STORAGE_SIZE T) (T.DEFAULT_ALIGNMENT : Int)
        (new_addr, set_actual_malloc_address T h1 new_addr r)
      else (0, h1)

/-- The caller writes the bytes `data` to memory starting at `p`. -/
def writeBytes (h : Heap) (p : Nat) (data : List Nat) : Heap :=
  { mem := fun a => if p ≤ a ∧ a < p + data.length then (data.getD (a - p) 0) % 256 else h.mem a,
    live := h.live,
    calls := h.calls }

/-! ## The size check with the division made explicit, and without the round trip -/

/-- Unsigned 64-bit division as the machine performs it: there is no result
(`none`) for a zero divisor. -/
def udiv (a b : Nat) : Option Nat := if b = 0 then none else some (a / b)

/-- Lines 27-34 once more, statement by statement, the division of line 30
being a step that can trap: `none` stands for a division by zero. -/
def check_size_argument_overflow_trap (T : Target) (nmemb size : Nat) : Option Nat :=
  let total_size := (nmemb * size) % 2 ^ 64
  if nmemb = 0 then some 1
  else
    match udiv (VPX_MAX_ALLOCABLE_MEMORY T) nmemb with
    | none => none
    | some q =>
      if size > q then some 0
      else if total_size ≠ total_size % 2 ^ T.bits then some 0
      else some 1

/-- The variant of lines 27-34 in which line 31, the test
`total_size != (size_t)total_size`, is removed. -/
def check_size_argument_overflow_no_roundtrip (T : Target) (nmemb size : Nat) : Nat :=
  if nmemb = 0 then 1
  else if size > VPX_MAX_ALLOCABLE_MEMORY T / nmemb then 0
  else 1

/-! ## vpx_memset16 (vpx_mem.c lines 118-125) -/

/-- The conversion `(uint16_t)val` of an `int`. -/
def toUint16 (val : Int) : Nat := (val % 65536).toNat

/-- Line 122: the loop `for (i = 0; i < length; i++) *dest16++ = val;`, by
recursion on the number of iterations left.  Each iteration stores the two
bytes of `(uint16_t)val` at `dest16` and advances `dest16` by one element. -/
def memset16_loop (mem : Nat → Nat) (dest16 : Nat) (val : Int) : Nat → Nat → Nat
  | 0 => mem
  | n + 1 => memset16_loop (storeBytes mem dest16 2 (toUint16 val)) (dest16 + 2) val n

/-- Lines 119-124.  The result is the returned pointer and the state
afterwards; the host allocator is not involved. -/
def vpx_memset16 (h : Heap) (dest : Nat) (val : Int) (length : Nat) : Nat × Heap :=
  (dest, { mem := memset16_loop h.mem dest val length, live := h.live, calls := h.calls })

/-- Element `i` of the array of 16-bit elements that starts at `dest`. -/
def elem16 (mem : Nat → Nat) (dest i : Nat) : Nat := loadBytes mem (dest + 2 * i) 2

/-! ## An end-to-end scenario on the 64-bit target -/

/-- The 100 bytes 1, 2, ..., 100 the caller stores. -/
def payload : List Nat := (List.range 100).map (fun i => i + 1)

/-- Step 1: `vpx_memalign(64, 100)` on an empty heap, `malloc` answering 0x1000. -/
def scenario_alloc : Nat × Heap := vpx_memalign lp64 0x1000 Heap.empty 64 100

/-- Step 2: the caller writes the payload at the returned pointer. -/
def scenario_written : Heap := writeBytes scenario_alloc.2 scenario_alloc.1 payload

/-- Step 3: `vpx_realloc(p, 200)`, the host `realloc` growing the raw block in
place (it answers the same address 0x1000). -/
def scenario_resized : Nat × Heap :=
  vpx_realloc lp64 0x1000 scenario_written scenario_alloc.1 200

/-- A default-aligned block: `vpx_malloc(100)` on an empty heap, `malloc`
answering 0x1000. -/
def scenario_malloc : Nat × Heap := vpx_malloc lp64 0x1000 Heap.empty 100

/-- The caller writes the payload into the default-aligned block. -/
def scenario_malloc_written : Heap :=
  writeBytes scenario_malloc.2 scenario_malloc.1 payload

/-! ## Size-check lemmas -/

theorem max_allocable_lt_two_pow_64 (T : Target) :
    VPX_MAX_ALLOCABLE_MEMORY T < 2 ^ 64 := by
  unfold VPX_MAX_ALLOCABLE_MEMORY
  split <;> norm_num

theorem size_max_lt (T : Target) : SIZE_MAX T < 2 ^ T.bits := by
  unfold SIZE_MAX
  have : 0 < 2 ^ T.bits := Nat.pos_pow_of_pos _ (by norm_num)
  omega

theorem le_size_max_iff (T : Target) (x : Nat) :
    x ≤ SIZE_MAX T ↔ x < 2 ^ T.bits := by
  unfold SIZE_MAX
  have : 0 < 2 ^ T.bits := Nat.pos_pow_of_pos _ (by norm_num)
  omega

/-- The size check, restated on unbounded naturals. -/
theorem check_eq_one_iff (T : Target) (nmemb size : Nat) :
    check_size_argument_overflow T nmemb size = 1 ↔
      nmemb * size ≤ SIZE_MAX T ∧ nmemb * size ≤ VPX_MAX_ALLOCABLE_MEMORY T := by
  unfold check_size_argument_overflow
  by_cases h0 : nmemb = 0
  · subst h0
    simp
  · have hpos : 0 < nmemb := Nat.pos_of_ne_zero h0
    simp only [h0, if_false]
    by_cases h1 : size > VPX_MAX_ALLOCABLE_MEMORY T / nmemb
    · simp only [h1, if_true]
      constructor
      · intro h; exact absurd h (by decide)
      · rintro ⟨_, h2⟩
        have : size ≤ VPX_MAX_ALLOCABLE_MEMORY T / nmemb :=
          (Nat.le_div_iff_mul_le hpos).2 (by rw [Nat.mul_comm]; exact h2)
        omega
    · simp only [h1, if_false]
      have hle : size ≤ VPX_MAX_ALLOCABLE_MEMORY T / nmemb := Nat.le_of_not_gt h1
      have hprod : nmemb * size ≤ VPX_MAX_ALLOCABLE_MEMORY T := by
        rw [Nat.mul_comm]; exact (Nat.le_div_iff_mul_le hpos).1 hle
      have hlt : nmemb * size < 2 ^ 64 :=
        lt_of_le_of_lt hprod (max_allocable_lt_two_pow_64 T)
      rw [Nat.mod_eq_of_lt hlt, le_size_max_iff]
      by_cases h2 : nmemb * size < 2 ^ T.bits
      · simp [Nat.mod_eq_of_lt h2, h2, hprod]
      · have hmod : nmemb * size % 2 ^ T.bits < 2 ^ T.bits :=
          Nat.mod_lt _ (Nat.pos_pow_of_pos _ (by norm_num))
        have hne : nmemb * size ≠ nmemb * size % 2 ^ T.bits := by omega
        simp [hne, h2]

theorem check_zero_or_one (T : Target) (nmemb size : Nat) :
    check_size_argument_overflow T nmemb size = 0 ∨
      check_size_argument_overflow T nmemb size = 1 := by
  rcases Nat.eq_zero_or_pos (check_size_argument_overflow T nmemb size) with h | h
  · exact Or.inl h
  · right
    unfold check_size_argument_overflow at h ⊢
    simp only at h ⊢
    split_ifs at h ⊢ <;> first | rfl | exact absurd h (by decide)


theorem two_pow_bits_pos (T : Target) : 0 < 2 ^ T.bits :=
  Nat.pos_pow_of_pos _ (by norm_num)

/-- When the true sum fits in 64 bits the wide addition is exact. -/
theorem aligned_size_raw_exact (ass size align : Nat) (h1 : 1 ≤ size + align)
    (h2 : size + align - 1 + ass < 2 ^ 64) :
    get_aligned_malloc_size_raw ass size align = size + align - 1 + ass := by
  unfold get_aligned_malloc_size_raw
  obtain ⟨t, ht⟩ : ∃ t, size + align = t + 1 := ⟨size + align - 1, by omega⟩
  rw [ht] at h2 ⊢
  simp only [Nat.add_sub_cancel] at h2 ⊢
  rw [Nat.mod_add_mod, Nat.add_assoc, Nat.mod_add_mod]
  have e : t + 1 + (2 ^ 64 - 1 + ass) = t + ass + 2 ^ 64 := by omega
  rw [e, Nat.add_mod_right]
  exact Nat.mod_eq_of_lt h2

/-! ## Alignment lemmas -/

theorem toSizeT_natCast (T : Target) (n : Nat) : toSizeT T (n : Int) = n % 2 ^ T.bits := by
  unfold toSizeT
  rw [← Int.natCast_mod, Int.toNat_natCast]

/-- Converting `-(n+1)` with `n` below the modulus. -/
theorem toSizeT_neg (T : Target) (n : Nat) (hn : n < 2 ^ T.bits) :
    toSizeT T (-((n : Int) + 1)) = 2 ^ T.bits - 1 - n := by
  unfold toSizeT
  have e : (-((n : Int) + 1)) = ((2 ^ T.bits - 1 - n : Nat) : Int) +
      (-1) * ((2 ^ T.bits : Nat) : Int) := by
    have : ((2 ^ T.bits - 1 - n : Nat) : Int) = ((2 ^ T.bits : Nat) : Int) - 1 - n := by
      omega
    rw [this]; ring
  rw [e, Int.add_mul_emod_self, ← Int.natCast_mod, Int.toNat_natCast]
  exact Nat.mod_eq_of_lt (by omega)

/-- Masking with a multiple of `2^k` yields a multiple of `2^k`. -/
theorem and_mask_mod (x mask k : Nat) (hm : mask % 2 ^ k = 0) :
    (x &&& mask) % 2 ^ k = 0 := by
  rw [← Nat.and_pow_two_sub_one_eq_mod, Nat.and_assoc, Nat.and_pow_two_sub_one_eq_mod, hm,
    Nat.and_zero]

/-- Masking off the `k` low bits rounds down to a multiple of `2^k`. -/
theorem and_high_mask (x w k : Nat) (hx : x < 2 ^ w) (hk : k ≤ w) :
    x &&& (2 ^ w - 1 - (2 ^ k - 1)) = 2 ^ k * (x / 2 ^ k) := by
  have hkw : 2 ^ k ≤ 2 ^ w := Nat.pow_le_pow_right (by norm_num) hk
  have hkpos : 0 < 2 ^ k := Nat.pos_pow_of_pos _ (by norm_num)
  have hm : 2 ^ k - 1 < 2 ^ w := by omega
  have e : 2 ^ w - 1 - (2 ^ k - 1) = 2 ^ w - ((2 ^ k - 1) + 1) := by omega
  rw [e]
  apply Nat.eq_of_testBit_eq
  intro i
  rw [Nat.testBit_and, Nat.testBit_two_pow_sub_succ hm, Nat.testBit_two_pow_sub_one,
    Nat.testBit_mul_pow_two, ← Nat.shiftRight_eq_div_pow, Nat.testBit_shiftRight]
  by_cases hik : i < k
  · have : ¬ (i ≥ k) := by omega
    simp [hik, this]
  · have hge : i ≥ k := by omega
    have e2 : k + (i - k) = i := by omega
    by_cases hiw : i < w
    · simp [hik, hge, hiw, e2]
    · have hxi : x < 2 ^ i :=
        lt_of_lt_of_le hx (Nat.pow_le_pow_right (by norm_num) (by omega))
      simp [hik, hge, hiw, e2, Nat.testBit_lt_two_pow hxi]

/-- Closed form of `align_addr` for an alignment `2^k` that fits both `int`
and `size_t`. -/
theorem align_addr_pow2 (T : Target) (addr k : Nat) (hk : k ≤ T.bits) :
    align_addr T addr ((2 ^ k : Nat) : Int) =
      2 ^ k * (((addr + (2 ^ k - 1)) % 2 ^ T.bits) / 2 ^ k) := by
  have hkpos : 0 < 2 ^ k := Nat.pos_pow_of_pos _ (by norm_num)
  have hkw : 2 ^ k ≤ 2 ^ T.bits := Nat.pow_le_pow_right (by norm_num) hk
  have hm : toSizeT T (((2 ^ k : Nat) : Int) - 1) = 2 ^ k - 1 := by
    have : (((2 ^ k : Nat) : Int) - 1) = ((2 ^ k - 1 : Nat) : Int) := by omega
    rw [this, toSizeT_natCast]
    exact Nat.mod_eq_of_lt (by omega)
  unfold align_addr
  simp only [hm]
  exact and_high_mask _ _ _ (Nat.mod_lt _ (two_pow_bits_pos T)) hk

/-- Without wrap-around the aligned address is the least multiple of `2^k`
at or above `addr`. -/
theorem align_addr_bounds (T : Target) (addr k : Nat) (hk : k ≤ T.bits)
    (hfit : addr + (2 ^ k - 1) < 2 ^ T.bits) :
    align_addr T addr ((2 ^ k : Nat) : Int) % 2 ^ k = 0 ∧
      addr ≤ align_addr T addr ((2 ^ k : Nat) : Int) ∧
      align_addr T addr ((2 ^ k : Nat) : Int) < addr + 2 ^ k := by
  have hkpos : 0 < 2 ^ k := Nat.pos_pow_of_pos _ (by norm_num)
  rw [align_addr_pow2 T addr k hk, Nat.mod_eq_of_lt hfit]
  have hdm := Nat.div_add_mod (addr + (2 ^ k - 1)) (2 ^ k)
  have hlt := Nat.mod_lt (addr + (2 ^ k - 1)) hkpos
  refine ⟨Nat.mul_mod_right _ _, ?_, ?_⟩ <;> omega

theorem align_addr_lt (T : Target) (addr : Nat) (a : Int) :
    align_addr T addr a < 2 ^ T.bits := by
  unfold align_addr
  exact lt_of_le_of_lt Nat.and_le_left (Nat.mod_lt _ (two_pow_bits_pos T))

/-! ## Memory lemmas -/

theorem storeBytes_below (m : Nat → Nat) (a k v x : Nat) (hx : x < a) :
    storeBytes m a k v x = m x := by
  induction k generalizing m a v with
  | zero => rfl
  | succ k ih =>
    simp only [storeBytes]
    rw [ih _ _ _ (by omega)]
    simp [Nat.ne_of_lt hx]

theorem storeBytes_above (m : Nat → Nat) (a k v x : Nat) (hx : a + k ≤ x) :
    storeBytes m a k v x = m x := by
  induction k generalizing m a v with
  | zero => rfl
  | succ k ih =>
    simp only [storeBytes]
    rw [ih _ _ _ (by omega)]
    have : x ≠ a := by omega
    simp [this]

theorem loadBytes_congr (m m' : Nat → Nat) (a k : Nat)
    (h : ∀ x, a ≤ x → x < a + k → m x = m' x) :
    loadBytes m a k = loadBytes m' a k := by
  induction k generalizing a with
  | zero => rfl
  | succ k ih =>
    simp only [loadBytes]
    rw [h a (le_refl _) (by omega), ih (a + 1) (fun x h1 h2 => h x (by omega) (by omega))]

theorem loadBytes_storeBytes (m : Nat → Nat) (a k v : Nat) :
    loadBytes (storeBytes m a k v) a k = v % 256 ^ k := by
  induction k generalizing m a v with
  | zero => simp [loadBytes, Nat.mod_one]
  | succ k ih =>
    simp only [loadBytes, storeBytes]
    rw [ih, storeBytes_below _ _ _ _ _ (Nat.lt_succ_self a)]
    simp only [if_true, Nat.mod_mod]
    rw [Nat.pow_succ, Nat.mul_comm (256 ^ k) 256, Nat.mod_mul]

theorem two_pow_bits_eq (T : Target) : 2 ^ T.bits = 256 ^ T.szBytes := by
  unfold Target.bits
  rw [Nat.pow_mul]

/-- Reading the header back after writing it returns the stored address. -/
theorem get_set_actual_malloc_address (T : Target) (h : Heap) (p r : Nat) :
    get_actual_malloc_address T (set_actual_malloc_address T h p r) p = r % 2 ^ T.bits := by
  unfold get_actual_malloc_address set_actual_malloc_address
  simp only
  rw [loadBytes_storeBytes, ← two_pow_bits_eq, Nat.mod_mod]

/-- The header location is `sizeof(size_t)` below any pointer that has room
for it. -/
theorem location_eq_sub (T : Target) (p : Nat) (h1 : T.szBytes ≤ p) (h2 : p < 2 ^ T.bits) :
    get_malloc_address_location T p = p - T.szBytes := by
  unfold get_malloc_address_location
  have : p + 2 ^ T.bits - T.szBytes = (p - T.szBytes) + 2 ^ T.bits := by omega
  rw [this, Nat.add_mod_right]
  exact Nat.mod_eq_of_lt (by omega)

/-! ## Unfolding the allocator -/

theorem vpx_memalign_reject (T : Target) (r : Nat) (h : Heap) (align size : Nat)
    (hc : check_size_argument_overflow T 1 (get_aligned_malloc_size T size align) = 0) :
    vpx_memalign T r h align size = (0, h) := by
  unfold vpx_memalign
  simp only [hc, if_true]

theorem vpx_memalign_null (T : Target) (h : Heap) (align size : Nat)
    (hc : check_size_argument_overflow T 1 (get_aligned_malloc_size T size align) ≠ 0) :
    vpx_memalign T 0 h align size =
      (0, host_malloc h (get_aligned_malloc_size T size align % 2 ^ T.bits) 0) := by
  unfold vpx_memalign
  simp only [hc, if_false, ne_eq, not_true_eq_false]

theorem vpx_memalign_ok (T : Target) (r : Nat) (h : Heap) (align size : Nat)
    (hc : check_size_argument_overflow T 1 (get_aligned_malloc_size T size align) ≠ 0)
    (hr : r ≠ 0) :
    vpx_memalign T r h align size =
      (align_addr T (r + ADDRESS_STORAGE_SIZE T) (toInt align),
        set_actual_malloc_address T
          (host_malloc h (get_aligned_malloc_size T size align % 2 ^ T.bits) r)
          (align_addr T (r + ADDRESS_STORAGE_SIZE T) (toInt align)) r) := by
  unfold vpx_memalign
  simp only [hc, if_false, ne_eq, hr, not_false_eq_true, if_true]

/-- A non-null result of `vpx_memalign` comes from the success path. -/
theorem vpx_memalign_nonnull (T : Target) (r : Nat) (h : Heap) (align size : Nat)
    (hp : (vpx_memalign T r h align size).1 ≠ 0) :
    check_size_argument_overflow T 1 (get_aligned_malloc_size T size align) ≠ 0 ∧ r ≠ 0 := by
  by_cases hc : check_size_argument_overflow T 1 (get_aligned_malloc_size T size align) = 0
  · rw [vpx_memalign_reject T r h align size hc] at hp
    exact absurd rfl hp
  · by_cases hr : r = 0
    · subst hr
      rw [vpx_memalign_null T h align size hc] at hp
      exact absurd rfl hp
    · exact ⟨hc, hr⟩

/-- Passing the size check for one element of the given size. -/
theorem check_one_ne_zero_iff (T : Target) (n : Nat) :
    check_size_argument_overflow T 1 n ≠ 0 ↔
      n ≤ SIZE_MAX T ∧ n ≤ VPX_MAX_ALLOCABLE_MEMORY T := by
  have h := check_eq_one_iff T 1 n
  rw [Nat.one_mul] at h
  rw [← h]
  rcases check_zero_or_one T 1 n with h0 | h1
  · simp [h0]
  · simp [h1]

theorem vpx_realloc_resize (T : Target) (r : Nat) (h : Heap) (memblk size : Nat)
    (hm : memblk ≠ 0) (hs : size ≠ 0)
    (hc : check_size_argument_overflow T 1
      (get_aligned_malloc_size T size T.DEFAULT_ALIGNMENT) ≠ 0) (hr : r ≠ 0) :
    vpx_realloc T r h memblk size =
      (align_addr T (r + ADDRESS_STORAGE_SIZE T) (T.DEFAULT_ALIGNMENT : Int),
        set_actual_malloc_address T
          (host_realloc h (get_actual_malloc_address T h memblk)
            (get_aligned_malloc_size T size T.DEFAULT_ALIGNMENT % 2 ^ T.bits) r)
          (align_addr T (r + ADDRESS_STORAGE_SIZE T) (T.DEFAULT_ALIGNMENT : Int)) r) := by
  unfold vpx_realloc
  simp only [hm, hs, hc, if_false, ne_eq, hr, not_false_eq_true, if_true]

theorem vpx_realloc_reject (T : Target) (r : Nat) (h : Heap) (memblk size : Nat)
    (hm : memblk ≠ 0) (hs : size ≠ 0)
    (hc : check_size_argument_overflow T 1
      (get_aligned_malloc_size T size T.DEFAULT_ALIGNMENT) = 0) :
    vpx_realloc T r h memblk size = (0, h) := by
  unfold vpx_realloc
  simp only [hm, hs, hc, if_false, if_true]

theorem vpx_realloc_null (T : Target) (h : Heap) (memblk size : Nat)
    (hm : memblk ≠ 0) (hs : size ≠ 0)
    (hc : check_size_argument_overflow T 1
      (get_aligned_malloc_size T size T.DEFAULT_ALIGNMENT) ≠ 0) :
    vpx_realloc T 0 h memblk size =
      (0, host_realloc h (get_actual_malloc_address T h memblk)
            (get_aligned_malloc_size T size T.DEFAULT_ALIGNMENT % 2 ^ T.bits) 0) := by
  unfold vpx_realloc
  simp only [hm, hs, hc, if_false, ne_eq, not_true_eq_false]

/-- A `memset` starting at `p` leaves the header before `p` alone. -/
theorem get_host_memset (T : Target) (h : Heap) (p v n : Nat)
    (h1 : T.szBytes ≤ p) (h2 : p < 2 ^ T.bits) :
    get_actual_malloc_address T (host_memset h p v n) p = get_actual_malloc_address T h p := by
  unfold get_actual_malloc_address host_memset
  simp only
  rw [location_eq_sub T p h1 h2]
  apply loadBytes_congr
  intro x _ hx
  have : ¬ (p ≤ x ∧ x < p + n) := by omega
  simp only [this, if_false]

/-- What `vpx_memalign` does for an alignment `2^k` below `2^31` when the true
sum passes the size check and the host block lies in the address space. -/
theorem vpx_memalign_success (T : Target) (r : Nat) (h : Heap) (k s : Nat)
    (hk : k < 31) (hsum : s + 2 ^ k - 1 + ADDRESS_STORAGE_SIZE T ≤ VPX_MAX_ALLOCABLE_MEMORY T)
    (hr : r ≠ 0) (hblk : r + (s + 2 ^ k - 1 + ADDRESS_STORAGE_SIZE T) ≤ SIZE_MAX T) :
    vpx_memalign T r h (2 ^ k) s =
        (align_addr T (r + ADDRESS_STORAGE_SIZE T) ((2 ^ k : Nat) : Int),
          set_actual_malloc_address T
            (host_malloc h (s + 2 ^ k - 1 + ADDRESS_STORAGE_SIZE T) r)
            (align_addr T (r + ADDRESS_STORAGE_SIZE T) ((2 ^ k : Nat) : Int)) r) ∧
      align_addr T (r + ADDRESS_STORAGE_SIZE T) ((2 ^ k : Nat) : Int) % 2 ^ k = 0 ∧
      r + ADDRESS_STORAGE_SIZE T ≤ align_addr T (r + ADDRESS_STORAGE_SIZE T) ((2 ^ k : Nat) : Int) ∧
      align_addr T (r + ADDRESS_STORAGE_SIZE T) ((2 ^ k : Nat) : Int) <
        r + ADDRESS_STORAGE_SIZE T + 2 ^ k := by
  have hkpos : 0 < 2 ^ k := Nat.pos_pow_of_pos _ (by norm_num)
  have hlt : (2 : Nat) ^ k < 2 ^ 31 := Nat.pow_lt_pow_right (by norm_num) hk
  have hmod : (2 : Nat) ^ k % 2 ^ 32 = 2 ^ k := Nat.mod_eq_of_lt (by omega)
  have hE : toInt (2 ^ k) = ((2 ^ k : Nat) : Int) := by
    unfold toInt
    rw [hmod, if_pos hlt]
  have hSM := size_max_lt T
  have hkb : k ≤ T.bits := by
    have : (2 : Nat) ^ k ≤ 2 ^ T.bits := by omega
    exact (Nat.pow_le_pow_iff_right (by norm_num)).1 this
  have hM := max_allocable_lt_two_pow_64 T
  have hexact : get_aligned_malloc_size T s (2 ^ k) = s + 2 ^ k - 1 + ADDRESS_STORAGE_SIZE T := by
    unfold get_aligned_malloc_size
    exact aligned_size_raw_exact _ _ _ (by omega) (by omega)
  have hc : check_size_argument_overflow T 1 (get_aligned_malloc_size T s (2 ^ k)) ≠ 0 := by
    rw [check_one_ne_zero_iff, hexact]
    exact ⟨by omega, hsum⟩
  have hfit : r + ADDRESS_STORAGE_SIZE T + (2 ^ k - 1) < 2 ^ T.bits := by omega
  have hb := align_addr_bounds T (r + ADDRESS_STORAGE_SIZE T) k hkb hfit
  refine ⟨?_, hb.1, hb.2.1, hb.2.2⟩
  rw [vpx_memalign_ok T r h (2 ^ k) s hc hr, hE, hexact]
  have : (s + 2 ^ k - 1 + ADDRESS_STORAGE_SIZE T) % 2 ^ T.bits =
      s + 2 ^ k - 1 + ADDRESS_STORAGE_SIZE T := Nat.mod_eq_of_lt (by omega)
  rw [this]

/-- What the resizing branch of `vpx_realloc` does when the default alignment
is `2^k`, the true sum passes the size check and the host block lies in the
address space. -/
theorem vpx_realloc_success (T : Target) (r : Nat) (h : Heap) (p n k : Nat)
    (hp : p ≠ 0) (hn : n ≠ 0) (hDA : T.DEFAULT_ALIGNMENT = 2 ^ k)
    (hsum : n + 2 ^ k - 1 + ADDRESS_STORAGE_SIZE T ≤ VPX_MAX_ALLOCABLE_MEMORY T)
    (hr : r ≠ 0) (hblk : r + (n + 2 ^ k - 1 + ADDRESS_STORAGE_SIZE T) ≤ SIZE_MAX T) :
    vpx_realloc T r h p n =
        (align_addr T (r + ADDRESS_STORAGE_SIZE T) ((2 ^ k : Nat) : Int),
          set_actual_malloc_address T
            (host_realloc h (get_actual_malloc_address T h p)
              (n + 2 ^ k - 1 + ADDRESS_STORAGE_SIZE T) r)
            (align_addr T (r + ADDRESS_STORAGE_SIZE T) ((2 ^ k : Nat) : Int)) r) ∧
      align_addr T (r + ADDRESS_STORAGE_SIZE T) ((2 ^ k : Nat) : Int) % 2 ^ k = 0 ∧
      r + ADDRESS_STORAGE_SIZE T ≤ align_addr T (r + ADDRESS_STORAGE_SIZE T) ((2 ^ k : Nat) : Int) ∧
      align_addr T (r + ADDRESS_STORAGE_SIZE T) ((2 ^ k : Nat) : Int) <
        r + ADDRESS_STORAGE_SIZE T + 2 ^ k := by
  have hkpos : 0 < 2 ^ k := Nat.pos_pow_of_pos _ (by norm_num)
  have hSM := size_max_lt T
  have hkb : k ≤ T.bits := by
    have : (2 : Nat) ^ k ≤ 2 ^ T.bits := by omega
    exact (Nat.pow_le_pow_iff_right (by norm_num)).1 this
  have hM := max_allocable_lt_two_pow_64 T
  have hexact : get_aligned_malloc_size T n T.DEFAULT_ALIGNMENT =
      n + 2 ^ k - 1 + ADDRESS_STORAGE_SIZE T := by
    rw [hDA]
    unfold get_aligned_malloc_size
    exact aligned_size_raw_exact _ _ _ (by omega) (by omega)
  have hc : check_size_argument_overflow T 1
      (get_aligned_malloc_size T n T.DEFAULT_ALIGNMENT) ≠ 0 := by
    rw [check_one_ne_zero_iff, hexact]
    exact ⟨by omega, hsum⟩
  have hfit : r + ADDRESS_STORAGE_SIZE T + (2 ^ k - 1) < 2 ^ T.bits := by omega
  have hb := align_addr_bounds T (r + ADDRESS_STORAGE_SIZE T) k hkb hfit
  refine ⟨?_, hb.1, hb.2.1, hb.2.2⟩
  rw [vpx_realloc_resize T r h p n hp hn hc hr, hexact, hDA]
  have : (n + 2 ^ k - 1 + ADDRESS_STORAGE_SIZE T) % 2 ^ T.bits =
      n + 2 ^ k - 1 + ADDRESS_STORAGE_SIZE T := Nat.mod_eq_of_lt (by omega)
  rw [this]

theorem vpx_calloc_reject (T : Target) (r : Nat) (h : Heap) (num size : Nat)
    (hc : check_size_argument_overflow T num size = 0) :
    vpx_calloc T r h num size = (0, h) := by
  unfold vpx_calloc
  simp only [hc, if_true]

/-- Where the trap-aware embedding has a result, it is the result of the total
one. -/
theorem vpx_memalign_trap_agrees (T : Target) (r : Nat) (h : Heap) (align size : Nat)
    (res : Nat × Heap) (ht : vpx_memalign_trap T r h align size = some res) :
    vpx_memalign T r h align size = res := by
  unfold vpx_memalign_trap at ht
  unfold vpx_memalign
  simp only at ht ⊢
  split_ifs at ht ⊢ <;> exact Option.some.inj ht

/-- For an alignment `2^k` below `2^31`, a request within the ceiling and a
host block inside the address space, no step of `vpx_memalign` is undefined. -/
theorem vpx_memalign_trap_defined (T : Target) (r : Nat) (h : Heap) (k s : Nat)
    (hk : k < 31) (hsum : s + 2 ^ k - 1 + ADDRESS_STORAGE_SIZE T ≤ VPX_MAX_ALLOCABLE_MEMORY T)
    (hr : r ≠ 0) (hblk : r + (s + 2 ^ k - 1 + ADDRESS_STORAGE_SIZE T) ≤ SIZE_MAX T) :
    vpx_memalign_trap T r h (2 ^ k) s = some (vpx_memalign T r h (2 ^ k) s) := by
  obtain ⟨he, _, hlo, hhi⟩ := vpx_memalign_success T r h k s hk hsum hr hblk
  have hkpos : 0 < 2 ^ k := Nat.pos_pow_of_pos _ (by norm_num)
  have hlt : (2 : Nat) ^ k < 2 ^ 31 := Nat.pow_lt_pow_right (by norm_num) hk
  have hmod : (2 : Nat) ^ k % 2 ^ 32 = 2 ^ k := Nat.mod_eq_of_lt (by omega)
  have hE : toInt (2 ^ k) = ((2 ^ k : Nat) : Int) := by
    unfold toInt
    rw [hmod, if_pos hlt]
  have hne : toInt (2 ^ k) ≠ -2 ^ 31 := by
    rw [hE]
    have : (0 : Int) ≤ ((2 ^ k : Nat) : Int) := Int.natCast_nonneg _
    omega
  have hSM := size_max_lt T
  have hM := max_allocable_lt_two_pow_64 T
  have hA : ADDRESS_STORAGE_SIZE T = T.szBytes := rfl
  have hexact : get_aligned_malloc_size T s (2 ^ k) = s + 2 ^ k - 1 + ADDRESS_STORAGE_SIZE T := by
    unfold get_aligned_malloc_size
    exact aligned_size_raw_exact _ _ _ (by omega) (by omega)
  have hc : check_size_argument_overflow T 1 (get_aligned_malloc_size T s (2 ^ k)) ≠ 0 := by
    rw [check_one_ne_zero_iff, hexact]
    exact ⟨by omega, hsum⟩
  have hnm : (s + 2 ^ k - 1 + ADDRESS_STORAGE_SIZE T) % 2 ^ T.bits =
      s + 2 ^ k - 1 + ADDRESS_STORAGE_SIZE T := Nat.mod_eq_of_lt (by omega)
  have hloc : get_malloc_address_location T
      (align_addr T (r + ADDRESS_STORAGE_SIZE T) ((2 ^ k : Nat) : Int)) =
      align_addr T (r + ADDRESS_STORAGE_SIZE T) ((2 ^ k : Nat) : Int) - T.szBytes :=
    location_eq_sub T _ (by omega) (align_addr_lt T _ _)
  rw [he]
  unfold vpx_memalign_trap
  simp only
  rw [if_neg hc, if_pos hr, if_neg hne, hE, hexact, hnm, hloc,
    if_pos ⟨by omega, by omega, by omega⟩]

/-! ## The claims -/

/-- C1: `check_size_argument_overflow(nmemb, size)` returns 1 exactly when the
unbounded product `nmemb * size` fits in `size_t` and does not exceed
`VPX_MAX_ALLOCABLE_MEMORY`, which is `2^40` when `SIZE_MAX > 2^40` and
`2^31 - 2^16` otherwise; in every other case it returns 0.  This holds for all
naturals, hence for all pairs of 64-bit values. -/
theorem check_size_argument_overflow_iff (T : Target) (nmemb size : Nat) :
    (check_size_argument_overflow T nmemb size = 1 ↔
        nmemb * size ≤ SIZE_MAX T ∧ nmemb * size ≤ VPX_MAX_ALLOCABLE_MEMORY T) ∧
      (check_size_argument_overflow T nmemb size = 0 ↔
        ¬ (nmemb * size ≤ SIZE_MAX T ∧ nmemb * size ≤ VPX_MAX_ALLOCABLE_MEMORY T)) ∧
      VPX_MAX_ALLOCABLE_MEMORY T = (if SIZE_MAX T > 2 ^ 40 then 2 ^ 40 else 2 ^ 31 - 2 ^ 16) := by
  refine ⟨check_eq_one_iff T nmemb size, ?_, rfl⟩
  rw [← check_eq_one_iff T nmemb size]
  rcases check_zero_or_one T nmemb size with h0 | h1
  · simp [h0]
  · simp [h1]

/-- C2 (failing input): on a 64-bit target `vpx_memalign(16, SIZE_MAX)` has
the true sum `SIZE_MAX + 16 - 1 + 8` far above the ceiling, yet the 64-bit
addition in `get_aligned_malloc_size` wraps to 22, the size check passes,
`malloc(22)` is called and a non-null pointer is returned. -/
theorem vpx_memalign_sum_wraps :
    VPX_MAX_ALLOCABLE_MEMORY lp64 < SIZE_MAX lp64 + 16 - 1 + ADDRESS_STORAGE_SIZE lp64 ∧
      get_aligned_malloc_size lp64 (SIZE_MAX lp64) 16 = 22 ∧
      (vpx_memalign lp64 0x1000 Heap.empty 16 (SIZE_MAX lp64)).2.calls = [Call.malloc 22] ∧
      (vpx_memalign lp64 0x1000 Heap.empty 16 (SIZE_MAX lp64)).1 = 0x1010 := by
  refine ⟨by decide, by decide, by decide, by decide⟩

/-- C3 (failing input): on the 64-bit target `vpx_memalign(2^32, 100)` passes
the size check with the full alignment, `malloc` answers the non-null address
0x1000, and `(int)align` is 0; `align_addr` then yields NULL and the header
store goes through `((size_t *)NULL) - 1`, the address `2^64 - 8`: the call
neither returns NULL nor returns an aligned pointer.  At `align = 2^31` the
narrowed alignment is `INT_MIN` and `(align) - 1` overflows `int`. -/
theorem vpx_memalign_wide_alignment_faults :
    32 < lp64.bits ∧
      check_size_argument_overflow lp64 1 (get_aligned_malloc_size lp64 100 (2 ^ 32)) = 1 ∧
      toInt (2 ^ 32) = 0 ∧
      align_addr lp64 (0x1000 + ADDRESS_STORAGE_SIZE lp64) (toInt (2 ^ 32)) = 0 ∧
      get_malloc_address_location lp64 0 = 2 ^ 64 - 8 ∧
      (vpx_memalign_trap lp64 0x1000 Heap.empty (2 ^ 32) 100).isNone = true ∧
      toInt (2 ^ 31) = -2 ^ 31 ∧
      (vpx_memalign_trap lp64 0x1000 Heap.empty (2 ^ 31) 100).isNone = true := by
  refine ⟨by decide, by decide, by decide, by decide, by decide, by decide, by decide,
    by decide⟩

/-- C4 (failing input): on the 64-bit target `vpx_memalign(2^32, 0)` requests
`n = 2^32 + 7` bytes, within the ceiling; `malloc` answers the non-null
address 0x10000 of a block inside the address space.  The size was computed
from the full alignment but the address is computed from `(int)align = 0`:
`align_addr` yields 0, which is below `r + ADDRESS_STORAGE_SIZE`, the header
slot before it is not inside `[r, r + n)`, and the call does not return. -/
theorem vpx_memalign_wide_alignment_leaves_block :
    get_aligned_malloc_size lp64 0 (2 ^ 32) = 0 + 2 ^ 32 - 1 + ADDRESS_STORAGE_SIZE lp64 ∧
      0 + 2 ^ 32 - 1 + ADDRESS_STORAGE_SIZE lp64 ≤ VPX_MAX_ALLOCABLE_MEMORY lp64 ∧
      0x10000 + (0 + 2 ^ 32 - 1 + ADDRESS_STORAGE_SIZE lp64) ≤ SIZE_MAX lp64 ∧
      align_addr lp64 (0x10000 + ADDRESS_STORAGE_SIZE lp64) (toInt (2 ^ 32)) = 0 ∧
      ¬ (0x10000 + ADDRESS_STORAGE_SIZE lp64 ≤
          align_addr lp64 (0x10000 + ADDRESS_STORAGE_SIZE lp64) (toInt (2 ^ 32))) ∧
      ¬ (get_malloc_address_location lp64
            (align_addr lp64 (0x10000 + ADDRESS_STORAGE_SIZE lp64) (toInt (2 ^ 32))) +
          lp64.szBytes ≤ 0x10000 + (0 + 2 ^ 32 - 1 + ADDRESS_STORAGE_SIZE lp64)) ∧
      (vpx_memalign_trap lp64 0x10000 Heap.empty (2 ^ 32) 0).isNone = true := by
  refine ⟨by decide, by decide, by decide, by decide, by decide, by decide, by decide⟩

/-- Alignments that fit `int`: for an alignment `a = 2^k` below `2^31`, a size `s` whose
request `n = s + a - 1 + ADDRESS_STORAGE_SIZE` is within the ceiling, and a
non-null raw address `r` answered by `malloc` for a block `[r, r + n)` that
lies in the address space, `vpx_memalign(a, s)` asks `malloc` for exactly `n`
bytes and returns `p` with `r + ADDRESS_STORAGE_SIZE ≤ p < r +
ADDRESS_STORAGE_SIZE + a` and `p + s ≤ r + n`; the header is written at
`p - ADDRESS_STORAGE_SIZE`, so header slot and user region lie in the block. -/
theorem vpx_memalign_within_block (T : Target) (r : Nat) (h : Heap) (k s : Nat)
    (hk : k < 31) (hsum : s + 2 ^ k - 1 + ADDRESS_STORAGE_SIZE T ≤ VPX_MAX_ALLOCABLE_MEMORY T)
    (hr : r ≠ 0) (hblk : r + (s + 2 ^ k - 1 + ADDRESS_STORAGE_SIZE T) ≤ SIZE_MAX T) :
    (vpx_memalign T r h (2 ^ k) s).2.calls =
        h.calls ++ [Call.malloc (s + 2 ^ k - 1 + ADDRESS_STORAGE_SIZE T)] ∧
      r + ADDRESS_STORAGE_SIZE T ≤ (vpx_memalign T r h (2 ^ k) s).1 ∧
      (vpx_memalign T r h (2 ^ k) s).1 < r + ADDRESS_STORAGE_SIZE T + 2 ^ k ∧
      (vpx_memalign T r h (2 ^ k) s).1 + s ≤ r + (s + 2 ^ k - 1 + ADDRESS_STORAGE_SIZE T) ∧
      get_malloc_address_location T (vpx_memalign T r h (2 ^ k) s).1 =
        (vpx_memalign T r h (2 ^ k) s).1 - ADDRESS_STORAGE_SIZE T ∧
      r ≤ (vpx_memalign T r h (2 ^ k) s).1 - ADDRESS_STORAGE_SIZE T := by
  obtain ⟨he, _, hlo, hhi⟩ := vpx_memalign_success T r h k s hk hsum hr hblk
  have hkpos : 0 < 2 ^ k := Nat.pos_pow_of_pos _ (by norm_num)
  have hSM := size_max_lt T
  rw [he]
  simp only
  refine ⟨rfl, hlo, hhi, by omega, ?_, by omega⟩
  have hA : ADDRESS_STORAGE_SIZE T = T.szBytes := rfl
  rw [hA] at hlo ⊢
  exact location_eq_sub T _ (by omega) (align_addr_lt T _ _)

/-- The block layout at `vpx_memalign(64, 100)` on the 64-bit target with
`malloc` answering 0x1000. -/
theorem vpx_memalign_within_block_witness :
    (6 < 31 ∧
      100 + 2 ^ 6 - 1 + ADDRESS_STORAGE_SIZE lp64 ≤ VPX_MAX_ALLOCABLE_MEMORY lp64 ∧
      0x1000 ≠ 0 ∧
      0x1000 + (100 + 2 ^ 6 - 1 + ADDRESS_STORAGE_SIZE lp64) ≤ SIZE_MAX lp64) ∧
    (vpx_memalign lp64 0x1000 Heap.empty (2 ^ 6) 100).2.calls =
        Heap.empty.calls ++ [Call.malloc (100 + 2 ^ 6 - 1 + ADDRESS_STORAGE_SIZE lp64)] ∧
      0x1000 + ADDRESS_STORAGE_SIZE lp64 ≤ (vpx_memalign lp64 0x1000 Heap.empty (2 ^ 6) 100).1 ∧
      (vpx_memalign lp64 0x1000 Heap.empty (2 ^ 6) 100).1 <
        0x1000 + ADDRESS_STORAGE_SIZE lp64 + 2 ^ 6 ∧
      (vpx_memalign lp64 0x1000 Heap.empty (2 ^ 6) 100).1 + 100 ≤
        0x1000 + (100 + 2 ^ 6 - 1 + ADDRESS_STORAGE_SIZE lp64) ∧
      get_malloc_address_location lp64 (vpx_memalign lp64 0x1000 Heap.empty (2 ^ 6) 100).1 =
        (vpx_memalign lp64 0x1000 Heap.empty (2 ^ 6) 100).1 - ADDRESS_STORAGE_SIZE lp64 ∧
      0x1000 ≤ (vpx_memalign lp64 0x1000 Heap.empty (2 ^ 6) 100).1 - ADDRESS_STORAGE_SIZE lp64 :=
  ⟨⟨by decide, by decide, by decide, by decide⟩,
    vpx_memalign_within_block lp64 0x1000 Heap.empty 6 100 (by decide) (by decide) (by decide)
      (by decide)⟩

/-- C5: header invariant.  With the host answering an address `r` that fits
`size_t`: reading the header after `set_actual_malloc_address(p, r)` gives
`r`; and after every non-null return `p` of `vpx_memalign`, `vpx_malloc`,
`vpx_calloc` and the resizing branch of `vpx_realloc`,
`get_actual_malloc_address(p)` is the address `r` the host answered in that
call.  For `vpx_calloc`, whose `memset` follows the header write, the default
alignment is taken to be a power of two below `2^31` and the header and
padding of the raw block to lie in the address space. -/
theorem header_invariant (T : Target) (r : Nat) (h : Heap) (hr : r < 2 ^ T.bits) :
    (∀ p, get_actual_malloc_address T (set_actual_malloc_address T h p r) p = r) ∧
      (∀ a s, (vpx_memalign T r h a s).1 ≠ 0 →
        get_actual_malloc_address T (vpx_memalign T r h a s).2 (vpx_memalign T r h a s).1 = r) ∧
      (∀ s, (vpx_malloc T r h s).1 ≠ 0 →
        get_actual_malloc_address T (vpx_malloc T r h s).2 (vpx_malloc T r h s).1 = r) ∧
      (∀ num size k, T.DEFAULT_ALIGNMENT = 2 ^ k → k < 31 →
        r + ADDRESS_STORAGE_SIZE T + 2 ^ k ≤ 2 ^ T.bits →
        (vpx_calloc T r h num size).1 ≠ 0 →
        get_actual_malloc_address T (vpx_calloc T r h num size).2
          (vpx_calloc T r h num size).1 = r) ∧
      (∀ p n, p ≠ 0 → n ≠ 0 → (vpx_realloc T r h p n).1 ≠ 0 →
        get_actual_malloc_address T (vpx_realloc T r h p n).2 (vpx_realloc T r h p n).1 = r) := by
  have hmod : r % 2 ^ T.bits = r := Nat.mod_eq_of_lt hr
  have hma : ∀ a s, (vpx_memalign T r h a s).1 ≠ 0 →
      get_actual_malloc_address T (vpx_memalign T r h a s).2 (vpx_memalign T r h a s).1 = r := by
    intro a s hp
    obtain ⟨hc, hr0⟩ := vpx_memalign_nonnull T r h a s hp
    rw [vpx_memalign_ok T r h a s hc hr0]
    simp only
    rw [get_set_actual_malloc_address, hmod]
  refine ⟨?_, hma, fun s hp => hma _ s hp, ?_, ?_⟩
  · intro p
    rw [get_set_actual_malloc_address, hmod]
  · intro num size k hDA hk hfit hp
    unfold vpx_calloc at hp ⊢
    by_cases hc : check_size_argument_overflow T num size = 0
    · simp only [hc, if_true] at hp
      exact absurd rfl hp
    · simp only [hc, if_false] at hp ⊢
      by_cases hx : (vpx_malloc T r h (num * size % 2 ^ T.bits)).1 = 0
      · simp only [hx, ne_eq, not_true_eq_false, if_false] at hp
      · simp only [ne_eq, hx, not_false_eq_true, if_true]
        have hget := hma T.DEFAULT_ALIGNMENT (num * size % 2 ^ T.bits) hx
        obtain ⟨hcm, hr0⟩ := vpx_memalign_nonnull T r h _ _ hx
        have hlt : (2 : Nat) ^ k < 2 ^ 31 := Nat.pow_lt_pow_right (by norm_num) hk
        have hm32 : (2 : Nat) ^ k % 2 ^ 32 = 2 ^ k := Nat.mod_eq_of_lt (by omega)
        have hE : toInt (2 ^ k) = ((2 ^ k : Nat) : Int) := by
          unfold toInt
          rw [hm32, if_pos hlt]
        have hkpos : 0 < 2 ^ k := Nat.pos_pow_of_pos _ (by norm_num)
        have hkb : k ≤ T.bits := by
          have : (2 : Nat) ^ k ≤ 2 ^ T.bits := by omega
          exact (Nat.pow_le_pow_iff_right (by norm_num)).1 this
        have hb := align_addr_bounds T (r + ADDRESS_STORAGE_SIZE T) k hkb (by omega)
        have hxe : (vpx_malloc T r h (num * size % 2 ^ T.bits)).1 =
            align_addr T (r + ADDRESS_STORAGE_SIZE T) ((2 ^ k : Nat) : Int) := by
          unfold vpx_malloc
          rw [vpx_memalign_ok T r h _ _ hcm hr0, hDA, hE]
        have hA : ADDRESS_STORAGE_SIZE T = T.szBytes := rfl
        have hge : T.szBytes ≤ (vpx_malloc T r h (num * size % 2 ^ T.bits)).1 := by
          rw [hxe]; omega
        have hlt2 : (vpx_malloc T r h (num * size % 2 ^ T.bits)).1 < 2 ^ T.bits := by
          rw [hxe]; exact align_addr_lt T _ _
        rw [get_host_memset T _ _ _ _ hge hlt2]
        exact hget
  · intro p n hp0 hn0 hp
    by_cases hc : check_size_argument_overflow T 1
        (get_aligned_malloc_size T n T.DEFAULT_ALIGNMENT) = 0
    · rw [vpx_realloc_reject T r h p n hp0 hn0 hc] at hp
      exact absurd rfl hp
    · by_cases hr0 : r = 0
      · subst hr0
        rw [vpx_realloc_null T h p n hp0 hn0 hc] at hp
        exact absurd rfl hp
      · rw [vpx_realloc_resize T r h p n hp0 hn0 hc hr0]
        simp only
        rw [get_set_actual_malloc_address, hmod]

/-- C5 at `vpx_calloc(4, 25)` on the 64-bit target with `malloc` answering
0x1000: the pointer is non-null and the header before it holds 0x1000. -/
theorem header_invariant_witness :
    (0x1000 : Nat) < 2 ^ lp64.bits ∧
      (vpx_calloc lp64 0x1000 Heap.empty 4 25).1 ≠ 0 ∧
      get_actual_malloc_address lp64 (vpx_calloc lp64 0x1000 Heap.empty 4 25).2
        (vpx_calloc lp64 0x1000 Heap.empty 4 25).1 = 0x1000 :=
  ⟨by decide, by decide,
    (header_invariant lp64 0x1000 Heap.empty (by decide)).2.2.2.1 4 25 4 rfl (by decide)
      (by decide) (by decide)⟩

/-- C6 (failing input): `vpx_memalign(64, 100)` returns 0x1040 for the raw
block at 0x1000; the caller stores 100 bytes; `vpx_realloc(p, 200)` with the
host growing the block in place returns 0x1010.  The host kept the raw block
intact, so the payload still sits 0x40 bytes into it, now 0x30 bytes past the
returned pointer: each of the first 48 bytes at the new pointer differs from
the byte that was stored at that offset. -/
theorem vpx_realloc_displaces_payload :
    scenario_alloc.1 = 0x1040 ∧
      scenario_resized.1 = 0x1010 ∧
      scenario_resized.2.calls = [Call.malloc 171, Call.realloc 0x1000 223] ∧
      scenario_written.mem scenario_alloc.1 = 1 ∧
      scenario_resized.2.mem scenario_resized.1 = 0 ∧
      (∀ i, i < 48 →
        scenario_resized.2.mem (scenario_resized.1 + i) ≠
          scenario_written.mem (scenario_alloc.1 + i)) ∧
      (∀ i, i < 100 →
        scenario_resized.2.mem (scenario_resized.1 + 48 + i) =
          scenario_written.mem (scenario_alloc.1 + i)) := by
  refine ⟨by decide, by decide, by decide, by decide, by decide, by decide, by decide⟩

/-- C7: whenever `check_size_argument_overflow(num, size)` is 0,
`vpx_calloc(num, size)` returns NULL and the state, including the log of host
calls, is exactly the state before the call: no `malloc`, `realloc`, `free`
or `memset` happens. -/
theorem vpx_calloc_overflow (T : Target) (r : Nat) (h : Heap) (num size : Nat)
    (hc : check_size_argument_overflow T num size = 0) :
    vpx_calloc T r h num size = (0, h) :=
  vpx_calloc_reject T r h num size hc

/-- C7 at `vpx_calloc(10, SIZE_MAX / 2)` on the 64-bit target: the product
overflows `size_t`, the check is 0, nothing is called. -/
theorem vpx_calloc_overflow_witness :
    SIZE_MAX lp64 < 10 * (SIZE_MAX lp64 / 2) ∧
      check_size_argument_overflow lp64 10 (SIZE_MAX lp64 / 2) = 0 ∧
      vpx_calloc lp64 0x1000 Heap.empty 10 (SIZE_MAX lp64 / 2) = (0, Heap.empty) :=
  ⟨by decide, by decide,
    vpx_calloc_overflow lp64 0x1000 Heap.empty 10 (SIZE_MAX lp64 / 2) (by decide)⟩

/-- C8: with `size_t` at most 64 bits wide, the default alignment a power of
two `2^k` below `2^31` and the host block lying in the address space, a
non-null return `p` of `vpx_calloc(num, size)` means: the `size_t` product
`num * size` is the true product; `malloc` was asked for `num * size +
DEFAULT_ALIGNMENT - 1 + ADDRESS_STORAGE_SIZE` bytes and `memset` for
`num * size` bytes at `p`; every byte of `[p, p + num * size)` reads zero; and
that range lies in the raw block. -/
theorem vpx_calloc_zeroed (T : Target) (r : Nat) (h : Heap) (num size k : Nat)
    (hsz : T.szBytes ≤ 8) (hDA : T.DEFAULT_ALIGNMENT = 2 ^ k) (hk : k < 31)
    (hblk : r + (num * size + 2 ^ k - 1 + ADDRESS_STORAGE_SIZE T) ≤ SIZE_MAX T)
    (hp : (vpx_calloc T r h num size).1 ≠ 0) :
    num * size % 2 ^ T.bits = num * size ∧
      (vpx_calloc T r h num size).2.calls =
        h.calls ++ [Call.malloc (num * size + 2 ^ k - 1 + ADDRESS_STORAGE_SIZE T),
          Call.memset (vpx_calloc T r h num size).1 0 (num * size)] ∧
      (∀ i, i < num * size →
        (vpx_calloc T r h num size).2.mem ((vpx_calloc T r h num size).1 + i) = 0) ∧
      r + ADDRESS_STORAGE_SIZE T ≤ (vpx_calloc T r h num size).1 ∧
      (vpx_calloc T r h num size).1 + num * size ≤
        r + (num * size + 2 ^ k - 1 + ADDRESS_STORAGE_SIZE T) := by
  have hkpos : 0 < 2 ^ k := Nat.pos_pow_of_pos _ (by norm_num)
  have hlt : (2 : Nat) ^ k < 2 ^ 31 := Nat.pow_lt_pow_right (by norm_num) hk
  have hSM := size_max_lt T
  have hM := max_allocable_lt_two_pow_64 T
  have hA : ADDRESS_STORAGE_SIZE T = T.szBytes := rfl
  have hc : check_size_argument_overflow T num size ≠ 0 := by
    intro hc0
    rw [vpx_calloc_reject T r h num size hc0] at hp
    exact hp rfl
  have hc1 : check_size_argument_overflow T num size = 1 := by
    rcases check_zero_or_one T num size with h0 | h1
    · exact absurd h0 hc
    · exact h1
  obtain ⟨hfitN, hmaxN⟩ := (check_eq_one_iff T num size).1 hc1
  have hmod : num * size % 2 ^ T.bits = num * size := Nat.mod_eq_of_lt (by omega)
  have hM40 : VPX_MAX_ALLOCABLE_MEMORY T ≤ 2 ^ 40 := by
    unfold VPX_MAX_ALLOCABLE_MEMORY
    split <;> norm_num
  unfold vpx_calloc at hp ⊢
  simp only [hc, if_false, hmod] at hp ⊢
  by_cases hx : (vpx_malloc T r h (num * size)).1 = 0
  · simp only [hx, ne_eq, not_true_eq_false, if_false] at hp
  · simp only [ne_eq, hx, not_false_eq_true, if_true]
    obtain ⟨hcm, hr0⟩ := vpx_memalign_nonnull T r h _ _ hx
    have hexact : get_aligned_malloc_size T (num * size) T.DEFAULT_ALIGNMENT =
        num * size + 2 ^ k - 1 + ADDRESS_STORAGE_SIZE T := by
      rw [hDA]
      unfold get_aligned_malloc_size
      exact aligned_size_raw_exact _ _ _ (by omega) (by omega)
    rw [check_one_ne_zero_iff, hexact] at hcm
    have hs := vpx_memalign_success T r h k (num * size) hk hcm.2 hr0 hblk
    obtain ⟨he, _, hlo, hhi⟩ := hs
    have hme : vpx_malloc T r h (num * size) = vpx_memalign T r h (2 ^ k) (num * size) := by
      unfold vpx_malloc
      rw [hDA]
    rw [hme, he]
    simp only
    refine ⟨trivial, ?_, ?_, hlo, by omega⟩
    · unfold host_memset set_actual_malloc_address host_malloc
      simp only [List.append_assoc, List.singleton_append]
    · intro i hi
      unfold host_memset
      simp only
      rw [if_pos ⟨Nat.le_add_right _ _, by omega⟩]

/-- C8 at `vpx_calloc(4, 25)` on the 64-bit target with `malloc` answering
0x1000. -/
theorem vpx_calloc_zeroed_witness :
    (lp64.szBytes ≤ 8 ∧ lp64.DEFAULT_ALIGNMENT = 2 ^ 4 ∧ 4 < 31 ∧
      0x1000 + (4 * 25 + 2 ^ 4 - 1 + ADDRESS_STORAGE_SIZE lp64) ≤ SIZE_MAX lp64 ∧
      (vpx_calloc lp64 0x1000 Heap.empty 4 25).1 ≠ 0) ∧
    (vpx_calloc lp64 0x1000 Heap.empty 4 25).1 = 0x1010 ∧
    (vpx_calloc lp64 0x1000 Heap.empty 4 25).2.calls =
      Heap.empty.calls ++ [Call.malloc (4 * 25 + 2 ^ 4 - 1 + ADDRESS_STORAGE_SIZE lp64),
        Call.memset (vpx_calloc lp64 0x1000 Heap.empty 4 25).1 0 (4 * 25)] ∧
    (∀ i, i < 4 * 25 →
      (vpx_calloc lp64 0x1000 Heap.empty 4 25).2.mem
        ((vpx_calloc lp64 0x1000 Heap.empty 4 25).1 + i) = 0) :=
  ⟨⟨by decide, rfl, by decide, by decide, by decide⟩, by decide,
    (vpx_calloc_zeroed lp64 0x1000 Heap.empty 4 25 4 (by decide) rfl (by decide) (by decide)
      (by decide)).2.1,
    (vpx_calloc_zeroed lp64 0x1000 Heap.empty 4 25 4 (by decide) rfl (by decide) (by decide)
      (by decide)).2.2.1⟩

/-- C9 (failing input): on the 64-bit target, with the block of the scenario
live at 0x1000 and `p = 0x1040`, `vpx_realloc(p, SIZE_MAX - 22)` computes the
sum `n + 16 - 1 + 8`, which wraps to 0; the size check passes and line 100
calls `realloc(0x1000, 0)`, which frees the block and answers NULL.  The call
returns NULL and the raw block is no longer live. -/
theorem vpx_realloc_wrapped_size_frees :
    (0x1040 : Nat) ≠ 0 ∧ SIZE_MAX lp64 - 22 ≠ 0 ∧
      get_actual_malloc_address lp64 scenario_written 0x1040 = 0x1000 ∧
      scenario_written.live = [(0x1000, 171)] ∧
      get_aligned_malloc_size lp64 (SIZE_MAX lp64 - 22) lp64.DEFAULT_ALIGNMENT = 0 ∧
      check_size_argument_overflow lp64 1
        (get_aligned_malloc_size lp64 (SIZE_MAX lp64 - 22) lp64.DEFAULT_ALIGNMENT) = 1 ∧
      (vpx_realloc lp64 0 scenario_written 0x1040 (SIZE_MAX lp64 - 22)).1 = 0 ∧
      (vpx_realloc lp64 0 scenario_written 0x1040 (SIZE_MAX lp64 - 22)).2.calls =
        [Call.malloc 171, Call.realloc 0x1000 0] ∧
      (vpx_realloc lp64 0 scenario_written 0x1040 (SIZE_MAX lp64 - 22)).2.live = [] := by
  refine ⟨by decide, by decide, by decide, by decide, by decide, by decide, by decide,
    by decide, by decide⟩

/-- Resize failure when the request is not zero bytes.  Let `p` be non-null,
`n > 0`, the default alignment a power of two `2^k`, the header and padding of
any block the host hands back lie in the address space, and the request
computed on lines 96-97 be non-zero.  If `vpx_realloc(p, n)` returns NULL,
then either the size check failed and the state is untouched, or the host
`realloc` was called once and answered NULL; in both cases memory, the live
raw blocks and `get_actual_malloc_address(p)` are as before. -/
theorem vpx_realloc_failure_keeps_block (T : Target) (r : Nat) (h : Heap) (p n k : Nat)
    (hp : p ≠ 0) (hn : n ≠ 0) (hDA : T.DEFAULT_ALIGNMENT = 2 ^ k)
    (hfit : r + ADDRESS_STORAGE_SIZE T + 2 ^ k ≤ 2 ^ T.bits)
    (hreq : get_aligned_malloc_size T n T.DEFAULT_ALIGNMENT % 2 ^ T.bits ≠ 0)
    (hnull : (vpx_realloc T r h p n).1 = 0) :
    ((check_size_argument_overflow T 1
          (get_aligned_malloc_size T n T.DEFAULT_ALIGNMENT) = 0 ∧
        (vpx_realloc T r h p n).2 = h) ∨
      (check_size_argument_overflow T 1
          (get_aligned_malloc_size T n T.DEFAULT_ALIGNMENT) ≠ 0 ∧ r = 0 ∧
        (vpx_realloc T r h p n).2.calls =
          h.calls ++ [Call.realloc (get_actual_malloc_address T h p)
            (get_aligned_malloc_size T n T.DEFAULT_ALIGNMENT % 2 ^ T.bits)])) ∧
      (vpx_realloc T r h p n).2.mem = h.mem ∧
      (vpx_realloc T r h p n).2.live = h.live ∧
      get_actual_malloc_address T (vpx_realloc T r h p n).2 p =
        get_actual_malloc_address T h p := by
  by_cases hc : check_size_argument_overflow T 1
      (get_aligned_malloc_size T n T.DEFAULT_ALIGNMENT) = 0
  · rw [vpx_realloc_reject T r h p n hp hn hc]
    exact ⟨Or.inl ⟨hc, rfl⟩, rfl, rfl, rfl⟩
  · by_cases hr : r = 0
    · subst hr
      rw [vpx_realloc_null T h p n hp hn hc]
      refine ⟨Or.inr ⟨hc, rfl, ?_⟩, ?_, ?_, ?_⟩
      · unfold host_realloc
        simp only [if_true]
      · unfold host_realloc
        simp only [if_true]
      · unfold host_realloc
        simp only [if_true, hreq, false_and, if_false]
      · unfold get_actual_malloc_address host_realloc
        simp only [if_true]
    · exfalso
      rw [vpx_realloc_resize T r h p n hp hn hc hr, hDA] at hnull
      simp only at hnull
      have hkpos : 0 < 2 ^ k := Nat.pos_pow_of_pos _ (by norm_num)
      have hkb : k ≤ T.bits := by
        have : (2 : Nat) ^ k ≤ 2 ^ T.bits := by omega
        exact (Nat.pow_le_pow_iff_right (by norm_num)).1 this
      have hb := align_addr_bounds T (r + ADDRESS_STORAGE_SIZE T) k hkb (by omega)
      omega

/-- C10: let `p` be non-null, `n > 0`, the default alignment a power of two,
the request `n + DEFAULT_ALIGNMENT - 1 + ADDRESS_STORAGE_SIZE` within the
ceiling, and the host `realloc` answer a non-null `r2` whose block of that
many bytes lies in the address space.  Then `vpx_realloc(p, n)` asks the host
for exactly that many bytes at the address recorded before `p`, and returns
`p2` that is a multiple of `DEFAULT_ALIGNMENT`, with `r2 +
ADDRESS_STORAGE_SIZE ≤ p2`, `p2 + n ≤ r2 + n + DEFAULT_ALIGNMENT - 1 +
ADDRESS_STORAGE_SIZE`, and the header before `p2` holding `r2`. -/
theorem vpx_realloc_realigns (T : Target) (r2 : Nat) (h : Heap) (p n k : Nat)
    (hp : p ≠ 0) (hn : n ≠ 0) (hDA : T.DEFAULT_ALIGNMENT = 2 ^ k)
    (hsum : n + T.DEFAULT_ALIGNMENT - 1 + ADDRESS_STORAGE_SIZE T ≤ VPX_MAX_ALLOCABLE_MEMORY T)
    (hr : r2 ≠ 0)
    (hblk : r2 + (n + T.DEFAULT_ALIGNMENT - 1 + ADDRESS_STORAGE_SIZE T) ≤ SIZE_MAX T) :
    (vpx_realloc T r2 h p n).2.calls =
        h.calls ++ [Call.realloc (get_actual_malloc_address T h p)
          (n + T.DEFAULT_ALIGNMENT - 1 + ADDRESS_STORAGE_SIZE T)] ∧
      (vpx_realloc T r2 h p n).1 ≠ 0 ∧
      (vpx_realloc T r2 h p n).1 % T.DEFAULT_ALIGNMENT = 0 ∧
      r2 + ADDRESS_STORAGE_SIZE T ≤ (vpx_realloc T r2 h p n).1 ∧
      (vpx_realloc T r2 h p n).1 + n ≤
        r2 + n + T.DEFAULT_ALIGNMENT - 1 + ADDRESS_STORAGE_SIZE T ∧
      get_actual_malloc_address T (vpx_realloc T r2 h p n).2 (vpx_realloc T r2 h p n).1 = r2 := by
  rw [hDA] at hsum hblk ⊢
  obtain ⟨he, hmod, hlo, hhi⟩ := vpx_realloc_success T r2 h p n k hp hn hDA hsum hr hblk
  have hkpos : 0 < 2 ^ k := Nat.pos_pow_of_pos _ (by norm_num)
  have hSM := size_max_lt T
  rw [he]
  simp only
  refine ⟨?_, by omega, hmod, hlo, by omega, ?_⟩
  · unfold set_actual_malloc_address host_realloc
    simp only [if_neg hr]
  · rw [get_set_actual_malloc_address]
    exact Nat.mod_eq_of_lt (by omega)

/-- C10 on the scenario heap of the 64-bit target: `vpx_realloc(0x1040, 200)`
with the host answering 0x1000 returns a multiple of 16 that is not a
multiple of the 64 asked for at allocation. -/
theorem vpx_realloc_realigns_witness :
    ((0x1040 : Nat) ≠ 0 ∧ (200 : Nat) ≠ 0 ∧ lp64.DEFAULT_ALIGNMENT = 2 ^ 4 ∧
      200 + lp64.DEFAULT_ALIGNMENT - 1 + ADDRESS_STORAGE_SIZE lp64 ≤
        VPX_MAX_ALLOCABLE_MEMORY lp64 ∧
      (0x1000 : Nat) ≠ 0 ∧
      0x1000 + (200 + lp64.DEFAULT_ALIGNMENT - 1 + ADDRESS_STORAGE_SIZE lp64) ≤ SIZE_MAX lp64) ∧
    (vpx_realloc lp64 0x1000 scenario_written 0x1040 200).1 = 0x1010 ∧
    (vpx_realloc lp64 0x1000 scenario_written 0x1040 200).1 % lp64.DEFAULT_ALIGNMENT = 0 ∧
      (vpx_realloc lp64 0x1000 scenario_written 0x1040 200).1 % 64 ≠ 0 ∧
      get_actual_malloc_address lp64 (vpx_realloc lp64 0x1000 scenario_written 0x1040 200).2
        (vpx_realloc lp64 0x1000 scenario_written 0x1040 200).1 = 0x1000 :=
  ⟨⟨by decide, by decide, rfl, by decide, by decide, by decide⟩, by decide,
    (vpx_realloc_realigns lp64 0x1000 scenario_written 0x1040 200 4 (by decide) (by decide) rfl
      (by decide) (by decide) (by decide)).2.2.1,
    by decide,
    (vpx_realloc_realigns lp64 0x1000 scenario_written 0x1040 200 4 (by decide) (by decide) rfl
      (by decide) (by decide) (by decide)).2.2.2.2.2⟩

/-! ## Lemmas for free, the 16-bit fill and the offset of the user pointer -/

theorem vpx_free_nonnull (T : Target) (h : Heap) (p : Nat) (hp : p ≠ 0) :
    vpx_free T h p = host_free h (get_actual_malloc_address T h p) := by
  unfold vpx_free
  simp only [ne_eq, hp, not_false_eq_true, if_true]

theorem vpx_free_null (T : Target) (h : Heap) : vpx_free T h 0 = h := by
  unfold vpx_free
  simp only [ne_eq, not_true_eq_false, if_false]

theorem toUint16_lt (val : Int) : toUint16 val < 65536 := by
  unfold toUint16
  omega

theorem memset16_loop_outside (mem : Nat → Nat) (dest : Nat) (val : Int) (n a : Nat)
    (ha : a < dest ∨ dest + 2 * n ≤ a) :
    memset16_loop mem dest val n a = mem a := by
  induction n generalizing mem dest with
  | zero => rfl
  | succ n ih =>
    simp only [memset16_loop]
    rw [ih _ _ (by omega)]
    rcases ha with ha | ha
    · exact storeBytes_below _ _ _ _ _ ha
    · exact storeBytes_above _ _ _ _ _ (by omega)

theorem memset16_loop_elem (mem : Nat → Nat) (dest : Nat) (val : Int) (n i : Nat)
    (hi : i < n) :
    elem16 (memset16_loop mem dest val n) dest i = toUint16 val := by
  induction n generalizing mem dest i with
  | zero => exact absurd hi (Nat.not_lt_zero _)
  | succ n ih =>
    simp only [memset16_loop]
    cases i with
    | zero =>
      unfold elem16
      have hcongr : loadBytes (memset16_loop (storeBytes mem dest 2 (toUint16 val)) (dest + 2) val n)
          (dest + 2 * 0) 2 = loadBytes (storeBytes mem dest 2 (toUint16 val)) (dest + 2 * 0) 2 := by
        apply loadBytes_congr
        intro x _ hx
        exact memset16_loop_outside _ _ _ _ _ (Or.inl (by omega))
      rw [hcongr, Nat.mul_zero, Nat.add_zero, loadBytes_storeBytes]
      exact Nat.mod_eq_of_lt (by have := toUint16_lt val; omega)
    | succ j =>
      have h := ih (storeBytes mem dest 2 (toUint16 val)) (dest + 2) j (by omega)
      unfold elem16 at h ⊢
      have e : dest + 2 * (j + 1) = dest + 2 + 2 * j := by omega
      rw [e]
      exact h

/-- The distance from an address to its aligned address depends only on the
address modulo the alignment. -/
theorem align_addr_offset_congr (T : Target) (a1 a2 k : Nat) (hk : k ≤ T.bits)
    (h1 : a1 + (2 ^ k - 1) < 2 ^ T.bits) (h2 : a2 + (2 ^ k - 1) < 2 ^ T.bits)
    (hc : a2 % 2 ^ k = a1 % 2 ^ k) :
    align_addr T a2 ((2 ^ k : Nat) : Int) - a2 = align_addr T a1 ((2 ^ k : Nat) : Int) - a1 := by
  have hkpos : 0 < 2 ^ k := Nat.pos_pow_of_pos _ (by norm_num)
  rw [align_addr_pow2 T a1 k hk, align_addr_pow2 T a2 k hk, Nat.mod_eq_of_lt h1,
    Nat.mod_eq_of_lt h2]
  have hm : (a2 + (2 ^ k - 1)) % 2 ^ k = (a1 + (2 ^ k - 1)) % 2 ^ k := by
    rw [Nat.add_mod a2, Nat.add_mod a1, hc]
  have d1 := Nat.div_add_mod (a1 + (2 ^ k - 1)) (2 ^ k)
  have d2 := Nat.div_add_mod (a2 + (2 ^ k - 1)) (2 ^ k)
  have l1 := Nat.mod_lt (a1 + (2 ^ k - 1)) hkpos
  omega

/-- The ceiling fits `size_t` as soon as `size_t` has 32 bits. -/
theorem max_allocable_le_size_max (T : Target) (hT : 4 ≤ T.szBytes) :
    VPX_MAX_ALLOCABLE_MEMORY T ≤ SIZE_MAX T := by
  have h32 : (2 : Nat) ^ 32 ≤ 2 ^ T.bits :=
    Nat.pow_le_pow_right (by norm_num) (by unfold Target.bits; omega)
  unfold VPX_MAX_ALLOCABLE_MEMORY
  split
  · omega
  · unfold SIZE_MAX
    have : (2 : Nat) ^ 31 - 2 ^ 16 < 2 ^ 32 := by norm_num
    omega

/-! ## The claims, continued -/

/-- C11: allocate/free round trip.  When `vpx_memalign(a, s)` returns a
non-null `p` for the raw address `r` answered by the host `malloc`, a
following `vpx_free(p)` makes exactly one host call, `free(r)`, and releases
the raw block; the same holds in any later state whose header before `p` still
holds `r`.  `vpx_free(NULL)` leaves the state, call log included, as it is. -/
theorem vpx_free_round_trip (T : Target) (r : Nat) (h : Heap) (a s : Nat)
    (hr : r < 2 ^ T.bits) (hp : (vpx_memalign T r h a s).1 ≠ 0) :
    (vpx_free T (vpx_memalign T r h a s).2 (vpx_memalign T r h a s).1).calls =
        (vpx_memalign T r h a s).2.calls ++ [Call.free r] ∧
      (vpx_free T (vpx_memalign T r h a s).2 (vpx_memalign T r h a s).1).calls =
        h.calls ++ [Call.malloc (get_aligned_malloc_size T s a % 2 ^ T.bits), Call.free r] ∧
      (∀ h2, get_actual_malloc_address T h2 (vpx_memalign T r h a s).1 = r →
        vpx_free T h2 (vpx_memalign T r h a s).1 = host_free h2 r ∧
        (vpx_free T h2 (vpx_memalign T r h a s).1).calls = h2.calls ++ [Call.free r]) ∧
      (∀ h2, vpx_free T h2 0 = h2) := by
  have hmod : r % 2 ^ T.bits = r := Nat.mod_eq_of_lt hr
  obtain ⟨hc, hr0⟩ := vpx_memalign_nonnull T r h a s hp
  have hget : get_actual_malloc_address T (vpx_memalign T r h a s).2
      (vpx_memalign T r h a s).1 = r := by
    rw [vpx_memalign_ok T r h a s hc hr0]
    simp only
    rw [get_set_actual_malloc_address, hmod]
  refine ⟨?_, ?_, ?_, fun h2 => vpx_free_null T h2⟩
  · rw [vpx_free_nonnull T _ _ hp, hget]
    rfl
  · rw [vpx_free_nonnull T _ _ hp, hget, vpx_memalign_ok T r h a s hc hr0]
    unfold host_free set_actual_malloc_address host_malloc
    simp only [List.append_assoc, List.singleton_append]
  · intro h2 hh
    rw [vpx_free_nonnull T _ _ hp, hh]
    exact ⟨rfl, rfl⟩

/-- C11 at `vpx_memalign(64, 100)` on the 64-bit target with `malloc`
answering 0x1000, followed by `vpx_free`. -/
theorem vpx_free_round_trip_witness :
    ((0x1000 : Nat) < 2 ^ lp64.bits ∧ (vpx_memalign lp64 0x1000 Heap.empty 64 100).1 ≠ 0) ∧
    (vpx_free lp64 (vpx_memalign lp64 0x1000 Heap.empty 64 100).2
        (vpx_memalign lp64 0x1000 Heap.empty 64 100).1).calls =
      [Call.malloc 171, Call.free 0x1000] ∧
    (vpx_free lp64 (vpx_memalign lp64 0x1000 Heap.empty 64 100).2
        (vpx_memalign lp64 0x1000 Heap.empty 64 100).1).calls =
      (vpx_memalign lp64 0x1000 Heap.empty 64 100).2.calls ++ [Call.free 0x1000] :=
  ⟨⟨by decide, by decide⟩, by decide,
    (vpx_free_round_trip lp64 0x1000 Heap.empty 64 100 (by decide) (by decide)).1⟩

/-- C12: for every `n`, zero included, every state and every host answer,
`vpx_realloc(NULL, n)` gives the same pointer and the same state, log of host
calls included, as `vpx_malloc(n)`. -/
theorem vpx_realloc_null_eq_malloc (T : Target) (r : Nat) (h : Heap) (n : Nat) :
    vpx_realloc T r h 0 n = vpx_malloc T r h n := by
  unfold vpx_realloc
  simp only [if_true]

/-- C13: for a non-null `p` whose header holds the raw address `raw`,
`vpx_realloc(p, 0)` returns NULL and makes exactly one host call,
`free(raw)`; neither `realloc` nor `malloc` is called, whatever the host would
have answered. -/
theorem vpx_realloc_zero_frees (T : Target) (r : Nat) (h : Heap) (p raw : Nat)
    (hp : p ≠ 0) (hraw : get_actual_malloc_address T h p = raw) :
    vpx_realloc T r h p 0 = (0, host_free h raw) ∧
      (vpx_realloc T r h p 0).1 = 0 ∧
      (vpx_realloc T r h p 0).2.calls = h.calls ++ [Call.free raw] ∧
      (vpx_realloc T r h p 0).2.mem = h.mem := by
  have e : vpx_realloc T r h p 0 = (0, host_free h raw) := by
    unfold vpx_realloc
    simp only [hp, if_false, if_true]
    rw [vpx_free_nonnull T h p hp, hraw]
  rw [e]
  exact ⟨rfl, rfl, rfl, rfl⟩

/-- C13 on the scenario heap of the 64-bit target: `vpx_realloc(0x1040, 0)`
returns NULL and logs one `free(0x1000)` after the earlier `malloc`. -/
theorem vpx_realloc_zero_frees_witness :
    ((0x1040 : Nat) ≠ 0 ∧ get_actual_malloc_address lp64 scenario_written 0x1040 = 0x1000) ∧
    (vpx_realloc lp64 0x2000 scenario_written 0x1040 0).1 = 0 ∧
    (vpx_realloc lp64 0x2000 scenario_written 0x1040 0).2.calls =
      [Call.malloc 171, Call.free 0x1000] ∧
    (vpx_realloc lp64 0x2000 scenario_written 0x1040 0).2.calls =
      scenario_written.calls ++ [Call.free 0x1000] :=
  ⟨⟨by decide, by decide⟩, by decide, by decide,
    (vpx_realloc_zero_frees lp64 0x2000 scenario_written 0x1040 0x1000 (by decide)
      (by decide)).2.2.1⟩

/-- C14: `check_size_argument_overflow(0, size)` returns 1 for every `size`,
and the function never divides by zero: the embedding in which the division is
a step that can trap returns a value on every input, the same as the plain
one. -/
theorem check_size_argument_overflow_zero (T : Target) (size : Nat) :
    check_size_argument_overflow T 0 size = 1 ∧
      check_size_argument_overflow_trap T 0 size = some 1 ∧
      (∀ nmemb, check_size_argument_overflow_trap T nmemb size =
        some (check_size_argument_overflow T nmemb size)) := by
  refine ⟨?_, ?_, ?_⟩
  · unfold check_size_argument_overflow
    simp only [if_true]
  · unfold check_size_argument_overflow_trap
    simp only [if_true]
  · intro nmemb
    unfold check_size_argument_overflow_trap check_size_argument_overflow udiv
    by_cases h0 : nmemb = 0
    · simp only [h0, if_true]
    · simp only [h0, if_false]
      split_ifs <;> rfl

/-- C15: `vpx_memset16(dest, val, length)` returns `dest`; afterwards each of
the elements 0 .. length-1 of the array at `dest` is `val` reduced modulo
`2^16`; every byte outside `[dest, dest + 2 * length)`, hence every element of
index at least `length`, is as before; the host allocator is not involved; and
with `length = 0` the state is unchanged. -/
theorem vpx_memset16_fills (h : Heap) (dest : Nat) (val : Int) (length : Nat) :
    (vpx_memset16 h dest val length).1 = dest ∧
      ((toUint16 val : Nat) : Int) = val % 2 ^ 16 ∧
      (∀ i, i < length →
        elem16 (vpx_memset16 h dest val length).2.mem dest i = toUint16 val) ∧
      (∀ i, length ≤ i →
        elem16 (vpx_memset16 h dest val length).2.mem dest i = elem16 h.mem dest i) ∧
      (∀ a, a < dest ∨ dest + 2 * length ≤ a →
        (vpx_memset16 h dest val length).2.mem a = h.mem a) ∧
      (vpx_memset16 h dest val length).2.calls = h.calls ∧
      (vpx_memset16 h dest val length).2.live = h.live ∧
      vpx_memset16 h dest val 0 = (dest, h) := by
  refine ⟨rfl, ?_, ?_, ?_, ?_, rfl, rfl, rfl⟩
  · unfold toUint16
    omega
  · intro i hi
    exact memset16_loop_elem h.mem dest val length i hi
  · intro i hi
    unfold elem16 vpx_memset16
    apply loadBytes_congr
    intro x hx _
    exact memset16_loop_outside _ _ _ _ _ (Or.inr (by omega))
  · intro a ha
    exact memset16_loop_outside _ _ _ _ _ ha

/-- C17: the size check is symmetric in its two arguments, zero arguments
included. -/
theorem check_size_argument_overflow_comm (T : Target) (n s : Nat) :
    check_size_argument_overflow T n s = check_size_argument_overflow T s n := by
  have h1 := check_eq_one_iff T n s
  have h2 := check_eq_one_iff T s n
  rw [Nat.mul_comm s n] at h2
  rcases check_zero_or_one T n s with a0 | a1
  · rcases check_zero_or_one T s n with b0 | b1
    · rw [a0, b0]
    · have := h1.2 (h2.1 b1)
      omega
  · rw [a1, h2.2 (h1.1 a1)]

/-- C18: on a target whose `size_t` has at least 32 bits (so on the 32-bit and
the 64-bit configurations), for `nmemb ≥ 1` and `size ≤
VPX_MAX_ALLOCABLE_MEMORY / nmemb` the 64-bit product of line 28 has not
wrapped and equals its truncation to `size_t`; hence the function equals, on
every input, the variant without the round-trip test. -/
theorem round_trip_test_redundant (T : Target) (hT : 4 ≤ T.szBytes) (nmemb size : Nat) :
    (1 ≤ nmemb → size ≤ VPX_MAX_ALLOCABLE_MEMORY T / nmemb →
        (nmemb * size) % 2 ^ 64 = nmemb * size ∧
        ((nmemb * size) % 2 ^ 64) % 2 ^ T.bits = (nmemb * size) % 2 ^ 64) ∧
      check_size_argument_overflow T nmemb size =
        check_size_argument_overflow_no_roundtrip T nmemb size := by
  have hfact : 1 ≤ nmemb → size ≤ VPX_MAX_ALLOCABLE_MEMORY T / nmemb →
      (nmemb * size) % 2 ^ 64 = nmemb * size ∧
      ((nmemb * size) % 2 ^ 64) % 2 ^ T.bits = (nmemb * size) % 2 ^ 64 := by
    intro hpos hle
    have hprod : nmemb * size ≤ VPX_MAX_ALLOCABLE_MEMORY T := by
      rw [Nat.mul_comm]; exact (Nat.le_div_iff_mul_le hpos).1 hle
    have h64 := max_allocable_lt_two_pow_64 T
    have hsm := max_allocable_le_size_max T hT
    have hlt := size_max_lt T
    have e1 : (nmemb * size) % 2 ^ 64 = nmemb * size := Nat.mod_eq_of_lt (by omega)
    rw [e1]
    exact ⟨rfl, Nat.mod_eq_of_lt (by omega)⟩
  refine ⟨hfact, ?_⟩
  unfold check_size_argument_overflow check_size_argument_overflow_no_roundtrip
  by_cases h0 : nmemb = 0
  · simp only [h0, if_true]
  · simp only [h0, if_false]
    by_cases h1 : size > VPX_MAX_ALLOCABLE_MEMORY T / nmemb
    · simp only [h1, if_true]
    · simp only [h1, if_false]
      have hf := hfact (Nat.pos_of_ne_zero h0) (Nat.le_of_not_gt h1)
      simp only [ne_eq, hf.2, not_true_eq_false, if_false]

/-- C18 on the 32-bit target at `(65536, 32767)`, the largest accepted
product there: both forms of the check return 1. -/
theorem round_trip_test_redundant_witness :
    4 ≤ ilp32.szBytes ∧
      check_size_argument_overflow ilp32 65536 32767 = 1 ∧
      check_size_argument_overflow ilp32 65536 32767 =
        check_size_argument_overflow_no_roundtrip ilp32 65536 32767 :=
  ⟨by decide, by decide, (round_trip_test_redundant ilp32 (by decide) 65536 32767).2⟩

/-- C16: resizing a default-aligned block keeps the offset of the user
pointer.  Let the default alignment be `2^k` below `2^31`, `p` the non-null
pointer `vpx_malloc(m)` returned for the raw address `r`, `n > 0`, and `r2`
the non-null answer of the host `realloc`, both requests within the ceiling
and both raw blocks in the address space.  If `r2` is congruent to `r` modulo
`DEFAULT_ALIGNMENT`, then `vpx_realloc(p, n)` returns `p2` with `p2 - r2 =
p - r`, in particular `p2 = p` when `r2 = r`; and in a state whose header
before `p` holds `r` and whose live block at `r` is the one `vpx_malloc`
requested, the first `min(m, n)` bytes at `p2` afterwards are the bytes that
were at `p`. -/
theorem vpx_realloc_keeps_offset (T : Target) (r r2 : Nat) (h0 h : Heap) (m n k : Nat)
    (hDA : T.DEFAULT_ALIGNMENT = 2 ^ k) (hk : k < 31)
    (hsum1 : m + 2 ^ k - 1 + ADDRESS_STORAGE_SIZE T ≤ VPX_MAX_ALLOCABLE_MEMORY T)
    (hr : r ≠ 0) (hblk1 : r + (m + 2 ^ k - 1 + ADDRESS_STORAGE_SIZE T) ≤ SIZE_MAX T)
    (hn : n ≠ 0)
    (hsum2 : n + 2 ^ k - 1 + ADDRESS_STORAGE_SIZE T ≤ VPX_MAX_ALLOCABLE_MEMORY T)
    (hr2 : r2 ≠ 0) (hblk2 : r2 + (n + 2 ^ k - 1 + ADDRESS_STORAGE_SIZE T) ≤ SIZE_MAX T)
    (hcong : r2 % T.DEFAULT_ALIGNMENT = r % T.DEFAULT_ALIGNMENT) :
    (vpx_malloc T r h0 m).1 ≠ 0 ∧
      r ≤ (vpx_malloc T r h0 m).1 ∧
      r2 ≤ (vpx_realloc T r2 h (vpx_malloc T r h0 m).1 n).1 ∧
      (vpx_realloc T r2 h (vpx_malloc T r h0 m).1 n).1 - r2 = (vpx_malloc T r h0 m).1 - r ∧
      (r2 = r → (vpx_realloc T r2 h (vpx_malloc T r h0 m).1 n).1 = (vpx_malloc T r h0 m).1) ∧
      (get_actual_malloc_address T h (vpx_malloc T r h0 m).1 = r →
        h.live.lookup r = some (m + 2 ^ k - 1 + ADDRESS_STORAGE_SIZE T) →
        ∀ i, i < min m n →
          (vpx_realloc T r2 h (vpx_malloc T r h0 m).1 n).2.mem
              ((vpx_realloc T r2 h (vpx_malloc T r h0 m).1 n).1 + i) =
            h.mem ((vpx_malloc T r h0 m).1 + i)) := by
  have hkpos : 0 < 2 ^ k := Nat.pos_pow_of_pos _ (by norm_num)
  have hSM := size_max_lt T
  have hA : ADDRESS_STORAGE_SIZE T = T.szBytes := rfl
  have hkb : k ≤ T.bits := by
    have : (2 : Nat) ^ k ≤ 2 ^ T.bits := by omega
    exact (Nat.pow_le_pow_iff_right (by norm_num)).1 this
  obtain ⟨he1, _, hlo1, hhi1⟩ := vpx_memalign_success T r h0 k m hk hsum1 hr hblk1
  have hme : vpx_malloc T r h0 m = vpx_memalign T r h0 (2 ^ k) m := by
    unfold vpx_malloc
    rw [hDA]
  have hp1 : (vpx_malloc T r h0 m).1 =
      align_addr T (r + ADDRESS_STORAGE_SIZE T) ((2 ^ k : Nat) : Int) := by
    rw [hme, he1]
  have hpne : (vpx_malloc T r h0 m).1 ≠ 0 := by
    rw [hp1]; omega
  obtain ⟨he2, _, hlo2, hhi2⟩ :=
    vpx_realloc_success T r2 h (vpx_malloc T r h0 m).1 n k hpne hn hDA hsum2 hr2 hblk2
  have hc2 : (r2 + ADDRESS_STORAGE_SIZE T) % 2 ^ k = (r + ADDRESS_STORAGE_SIZE T) % 2 ^ k := by
    rw [hDA] at hcong
    rw [Nat.add_mod r2, Nat.add_mod r, hcong]
  have hoff := align_addr_offset_congr T (r + ADDRESS_STORAGE_SIZE T)
    (r2 + ADDRESS_STORAGE_SIZE T) k hkb (by omega) (by omega) hc2
  rw [he2]
  simp only
  rw [hp1]
  refine ⟨by omega, by omega, by omega, by omega, fun e => by subst e; rfl, ?_⟩
  intro hhdr hlive i hi
  have hlt2 := align_addr_lt T (r2 + ADDRESS_STORAGE_SIZE T) ((2 ^ k : Nat) : Int)
  unfold set_actual_malloc_address
  simp only
  rw [location_eq_sub T _ (by omega) hlt2, storeBytes_above _ _ _ _ _ (by omega)]
  unfold host_realloc
  simp only [if_neg hr2, hhdr, hlive, Option.getD_some]
  rw [if_pos ⟨by omega, by omega⟩]
  congr 1
  omega

/-- C16 on the 64-bit target: `vpx_malloc(100)` with `malloc` answering
0x1000, the payload written, then `vpx_realloc(p, 200)` with the host moving
the block to 0x2000, which is congruent to 0x1000 modulo 16: the user pointer
keeps its offset 0x10 and the payload is found at the new pointer. -/
theorem vpx_realloc_keeps_offset_witness :
    (lp64.DEFAULT_ALIGNMENT = 2 ^ 4 ∧ 4 < 31 ∧
      100 + 2 ^ 4 - 1 + ADDRESS_STORAGE_SIZE lp64 ≤ VPX_MAX_ALLOCABLE_MEMORY lp64 ∧
      (0x1000 : Nat) ≠ 0 ∧
      0x1000 + (100 + 2 ^ 4 - 1 + ADDRESS_STORAGE_SIZE lp64) ≤ SIZE_MAX lp64 ∧
      (200 : Nat) ≠ 0 ∧
      200 + 2 ^ 4 - 1 + ADDRESS_STORAGE_SIZE lp64 ≤ VPX_MAX_ALLOCABLE_MEMORY lp64 ∧
      (0x2000 : Nat) ≠ 0 ∧
      0x2000 + (200 + 2 ^ 4 - 1 + ADDRESS_STORAGE_SIZE lp64) ≤ SIZE_MAX lp64 ∧
      0x2000 % lp64.DEFAULT_ALIGNMENT = 0x1000 % lp64.DEFAULT_ALIGNMENT) ∧
    (vpx_malloc lp64 0x1000 Heap.empty 100).1 = 0x1010 ∧
    (vpx_realloc lp64 0x2000 scenario_malloc_written
        (vpx_malloc lp64 0x1000 Heap.empty 100).1 200).1 = 0x2010 ∧
    (vpx_realloc lp64 0x2000 scenario_malloc_written
        (vpx_malloc lp64 0x1000 Heap.empty 100).1 200).1 - 0x2000 =
      (vpx_malloc lp64 0x1000 Heap.empty 100).1 - 0x1000 ∧
    scenario_malloc_written.mem ((vpx_malloc lp64 0x1000 Heap.empty 100).1 + 99) = 100 ∧
    (∀ i, i < min 100 200 →
      (vpx_realloc lp64 0x2000 scenario_malloc_written
          (vpx_malloc lp64 0x1000 Heap.empty 100).1 200).2.mem
          ((vpx_realloc lp64 0x2000 scenario_malloc_written
            (vpx_malloc lp64 0x1000 Heap.empty 100).1 200).1 + i) =
        scenario_malloc_written.mem ((vpx_malloc lp64 0x1000 Heap.empty 100).1 + i)) :=
  ⟨⟨rfl, by decide, by decide, by decide, by decide, by decide, by decide, by decide,
      by decide, by decide⟩,
    by decide, by decide,
    (vpx_realloc_keeps_offset lp64 0x1000 0x2000 Heap.empty scenario_malloc_written 100 200 4
      rfl (by decide) (by decide) (by decide) (by decide) (by decide) (by decide) (by decide)
      (by decide) (by decide)).2.2.2.1,
    by decide,
    (vpx_realloc_keeps_offset lp64 0x1000 0x2000 Heap.empty scenario_malloc_written 100 200 4
      rfl (by decide) (by decide) (by decide) (by decide) (by decide) (by decide) (by decide)
      (by decide) (by decide)).2.2.2.2.2 (by decide) (by decide)⟩

end VpxMem
